import Mathlib

/-!
Shallow embedding of the Position Risk Control Engine of the
`high-freq-trading-system` repository (directory `risk/`):

* `position_sizer.py`   — `PositionSizer.calculate_position_size`
* `risk_manager.py`     — `RiskManager.validate_signal` and its check helpers
* `stop_loss_manager.py`— `StopLossManager.initialize_stop_loss` / `update_stop_loss`
* `take_profit_manager.py` — `TakeProfitManager.initialize_take_profit` /
  `update_take_profit` / `_match_length_and_normalize`

Modelling conventions:
* Python floats are embedded as exact rationals (`ℚ`); statements about
  concrete numeric scenarios are exact in this model.
* Python strings used as enums (`direction`, `side`, `strength`, strategy
  names) stay `String`, so the source's fall-through `else` branches keep
  their exact meaning.
* A Python `ZeroDivisionError` is modelled by returning `none` from an
  `Option`-valued embedding at exactly the inputs where the source performs
  a division by a zero denominator.
* Human-readable reason/warning strings are embedded as constructors of an
  inductive `RMsg` carrying the numeric payload that the source interpolates
  into the f-string; the surface formatting is not modelled.
* Wall-clock fields (`trigger_ts`, `created_at`, the sentiment cache
  timestamp) are dropped: the sentiment cache in `risk_manager.py` is only
  ever written with the neutral default `{score: 0.0, fud_ratio: 0.0}`,
  which coincides with the no-data default, so the cache is behaviourally
  inert and the "no usable sentiment data" case is modelled as `none`.
-/

namespace RiskEngine

/-- Direction / side / strength are plain strings in the source. -/
abbrev Sym := String

/-- `PositionSignal`: fields read by the risk core
(`signal['direction']`, `signal['entry_price']`, `signal['stop_loss']`,
`signal['strength']`). -/
structure Signal where
  direction : String
  entry_price : ℚ
  stop_loss : ℚ
  strength : String
deriving Repr, DecidableEq

/-- Volatility input of `calculate_position_size`
(`volatility['atr']`, `volatility['price']`, with `.get` defaults 0 and 1). -/
structure Volatility where
  atr : ℚ
  price : ℚ
deriving Repr, DecidableEq

/-- `PositionSizer` configuration (`base_position_size`, `max_position_size`,
`account_risk_pct`, read once in `__init__`). -/
structure SizerConfig where
  base_position_pct : ℚ
  max_position_pct : ℚ
  account_risk_pct : ℚ
deriving Repr, DecidableEq

/-- `_get_limiting_factor` result strings. -/
inductive LimitingFactor where
  | lfNone
  | riskLimit
  | maxPositionLimit
  | unknown
deriving Repr, DecidableEq

/-- The `breakdown['limits_applied']` / multiplier part of the sizing result. -/
structure SizeBreakdown where
  volatility_multiplier : ℚ
  signal_multiplier : ℚ
  risk_multiplier : ℚ
  combined_multiplier : ℚ
  stop_distance_pct : ℚ
  max_position_limit : ℚ
  max_risk_limit : ℚ
  limiting_factor : LimitingFactor
deriving Repr, DecidableEq

/-- `SizingResult` returned by `calculate_position_size`. -/
structure SizingResult where
  position_value : ℚ
  quantity : ℚ
  base_size : ℚ
  adjusted_size : ℚ
  risk_amount : ℚ
  breakdown : SizeBreakdown
deriving Repr, DecidableEq

/-- `PositionSizer._calculate_volatility_multiplier`: normalises ATR by price
(guarded by `price > 0`) and buckets it at 1% and 3%. -/
def calcVolatilityMultiplier (v : Volatility) : ℚ :=
  let atr_normalized : ℚ := if 0 < v.price then v.atr / v.price else 0
  if atr_normalized < (1 : ℚ)/100 then 3/2
  else if atr_normalized < (3 : ℚ)/100 then 1
  else 1/2

/-- `PositionSizer._calculate_signal_multiplier`: dict lookup with default 1.0. -/
def calcSignalMultiplier (strength : String) : ℚ :=
  if strength = "strong" then 6/5
  else if strength = "medium" then 1
  else if strength = "weak" then 7/10
  else 1

/-- `PositionSizer._get_limiting_factor`. -/
def getLimitingFactor (adjusted_size max_risk_size max_position_size final_size : ℚ) :
    LimitingFactor :=
  if final_size = adjusted_size then .lfNone
  else if final_size = max_risk_size then .riskLimit
  else if final_size = max_position_size then .maxPositionLimit
  else .unknown

/-- `PositionSizer.calculate_position_size`.  Returns `none` exactly when the
Python code raises `ZeroDivisionError`: it divides by `entry_price` in
`stop_distance = abs(entry_price - stop_loss) / entry_price` and in
`quantity = final_size / entry_price`, and by `account_equity` inside the
eagerly evaluated `logger.info` f-string. -/
def calculatePositionSize (cfg : SizerConfig) (account_equity : ℚ) (signal : Signal)
    (volatility : Volatility) (risk_multiplier : ℚ) : Option SizingResult :=
  if signal.entry_price = 0 ∨ account_equity = 0 then none
  else
    let base_size := account_equity * cfg.base_position_pct
    let vol_mult := calcVolatilityMultiplier volatility
    let signal_mult := calcSignalMultiplier signal.strength
    let adjusted_size := base_size * vol_mult * signal_mult * risk_multiplier
    let stop_distance := |signal.entry_price - signal.stop_loss| / signal.entry_price
    let max_risk_amount := account_equity * cfg.account_risk_pct
    let max_risk_size := if 0 < stop_distance then max_risk_amount / stop_distance
                         else adjusted_size
    let max_position_size := account_equity * cfg.max_position_pct
    let final_size := min adjusted_size (min max_risk_size max_position_size)
    let quantity := final_size / signal.entry_price
    let risk_amount := final_size * stop_distance
    some
      { position_value := final_size
        quantity := quantity
        base_size := base_size
        adjusted_size := adjusted_size
        risk_amount := risk_amount
        breakdown :=
          { volatility_multiplier := vol_mult
            signal_multiplier := signal_mult
            risk_multiplier := risk_multiplier
            combined_multiplier := vol_mult * signal_mult * risk_multiplier
            stop_distance_pct := stop_distance
            max_position_limit := max_position_size
            max_risk_limit := max_risk_size
            limiting_factor :=
              getLimitingFactor adjusted_size max_risk_size max_position_size final_size } }

/-- Default sizer configuration from the docstring / `config.get` defaults:
10% base, 30% max, 2% account risk. -/
def defaultSizerConfig : SizerConfig :=
  { base_position_pct := 1/10, max_position_pct := 3/10, account_risk_pct := 1/50 }

/-- Spec scenario 1 signal: buy at 100 with stop 98, strong strength. -/
def scenario1Signal : Signal :=
  { direction := "buy", entry_price := 100, stop_loss := 98, strength := "strong" }

/-- Spec scenario 1 volatility: ATR/price = 0.5%. -/
def scenario1Vol : Volatility := { atr := 1/2, price := 100 }

/-! ## RiskManager (`risk_manager.py`) -/

/-- Reason / warning strings of `risk_manager.py`, as tags carrying the
numeric payload the source interpolates into the f-string. -/
inductive RMsg where
  | tradingPaused
  | criticalNegativeSentiment (score : ℚ)
  | negativeSentimentVeto (score : ℚ)
  | fudRatioInfo (fud : ℚ)
  | highFudRatio (fud : ℚ)
  | sentimentCheckPassed
  | sentimentNegativeReduce (score : ℚ)
  | noPositions
  | criticalLiquidationRisk (rate : ℚ)
  | immediateActionRequired
  | warningRiskRate (rate : ℚ)
  | highRiskRateReduce (rate : ℚ)
  | liquidationAcceptable
  | maxDrawdownReached (dd : ℚ)
  | tradingPausedWarn
  | highDrawdown (dd : ℚ)
  | drawdownAcceptable
  | insufficientBalance (available : ℚ)
  | balanceSufficient
  | allChecksPassed
deriving Repr, DecidableEq

/-- `SentimentReading`: the `score` / `fud_ratio` fields read by
`_check_sentiment`. -/
structure SentimentData where
  score : ℚ
  fud_ratio : ℚ
deriving Repr, DecidableEq

/-- `AccountSnapshot` fields read by the gate
(`account_info.get('total'/'available'/'used', 0)`). -/
structure AccountInfo where
  total : ℚ
  available : ℚ
  used : ℚ
deriving Repr, DecidableEq

/-- `RiskManager` configuration, with the `config.get` defaults of the
source attached below in `defaultRiskConfig`. -/
structure RiskConfig where
  sentiment_enabled : Bool
  veto_threshold : ℚ
  critical_threshold : ℚ
  liq_warning_threshold : ℚ
  liq_critical_threshold : ℚ
  max_drawdown : ℚ
  pause_threshold : ℚ
deriving Repr, DecidableEq

/-- Defaults from `risk_manager.py`: veto −0.4, critical −0.6, liquidation
warn 0.20 / critical 0.50, max drawdown 0.15, pause threshold 0.10. -/
def defaultRiskConfig : RiskConfig :=
  { sentiment_enabled := true
    veto_threshold := -(2/5)
    critical_threshold := -(3/5)
    liq_warning_threshold := 1/5
    liq_critical_threshold := 1/2
    max_drawdown := 3/20
    pause_threshold := 1/10 }

/-- Mutable account-wide gate state (`is_paused`, `pause_reason`,
`max_equity`; the unused `daily_loss` and the behaviourally inert sentiment
cache are dropped, see the header comment). -/
structure RiskState where
  is_paused : Bool
  pause_reason : Option RMsg
  max_equity : ℚ
deriving Repr, DecidableEq

/-- `RiskDecision` returned by `validate_signal`. -/
structure RiskDecision where
  approved : Bool
  reason : RMsg
  position_size_multiplier : ℚ
  warnings : List RMsg
deriving Repr, DecidableEq

/-- Result of `_check_sentiment`. -/
structure SentCheck where
  approved : Bool
  reason : RMsg
  sentiment_score : ℚ
  warnings : List RMsg
deriving Repr, DecidableEq

/-- `RiskManager._check_sentiment`.  `none` covers both "no data supplied"
and the cache path, which only ever holds the neutral default `(0, 0)`. -/
def checkSentiment (cfg : RiskConfig) (sentiment : Option SentimentData) : SentCheck :=
  let sentiment_score := (sentiment.map SentimentData.score).getD 0
  let fud_ratio := (sentiment.map SentimentData.fud_ratio).getD 0
  if sentiment_score ≤ cfg.critical_threshold then
    { approved := false, reason := .criticalNegativeSentiment sentiment_score
      sentiment_score := sentiment_score, warnings := [.fudRatioInfo fud_ratio] }
  else if sentiment_score ≤ cfg.veto_threshold then
    { approved := false, reason := .negativeSentimentVeto sentiment_score
      sentiment_score := sentiment_score, warnings := [.fudRatioInfo fud_ratio] }
  else
    { approved := true, reason := .sentimentCheckPassed
      sentiment_score := sentiment_score
      warnings := if fud_ratio > 3/10 then [.highFudRatio fud_ratio] else [] }

/-- Result of `_check_liquidation_risk`. -/
structure LiqCheck where
  approved : Bool
  reason : RMsg
  risk_rate : ℚ
  warnings : List RMsg
deriving Repr, DecidableEq

/-- `RiskManager._check_liquidation_risk`.  `positions` is `none` for Python
`None` and `some l` for a list; `not positions or len(positions) == 0` is
`positions = none ∨ positions = some []`. -/
def checkLiquidationRisk (cfg : RiskConfig) (account : AccountInfo)
    (positions : Option (List Unit)) : LiqCheck :=
  if positions = none ∨ positions = some [] then
    { approved := true, reason := .noPositions, risk_rate := 0, warnings := [] }
  else
    let risk_rate := if 0 < account.total then account.used / account.total else 0
    if risk_rate ≥ cfg.liq_critical_threshold then
      { approved := false, reason := .criticalLiquidationRisk risk_rate
        risk_rate := risk_rate, warnings := [.immediateActionRequired] }
    else
      { approved := true, reason := .liquidationAcceptable, risk_rate := risk_rate
        warnings := if risk_rate ≥ cfg.liq_warning_threshold
                    then [.warningRiskRate risk_rate] else [] }

/-- Result of `_check_drawdown`. -/
structure DrawdownCheck where
  approved : Bool
  reason : RMsg
  drawdown : ℚ
  warnings : List RMsg
deriving Repr, DecidableEq

/-- The high-water update of `_check_drawdown`:
`if total_equity > self.max_equity: self.max_equity = total_equity`. -/
def ddMaxEquity (st : RiskState) (account : AccountInfo) : ℚ :=
  if account.total > st.max_equity then account.total else st.max_equity

/-- The drawdown computation of `_check_drawdown`
(`0` when `max_equity` is not positive). -/
def ddValue (max_equity total : ℚ) : ℚ :=
  if 0 < max_equity then (max_equity - total) / max_equity else 0

/-- `RiskManager._check_drawdown`: updates the high-water `max_equity`, then
pauses trading when the drawdown reaches `max_drawdown`.  Returns the check
result together with the mutated state. -/
def checkDrawdown (cfg : RiskConfig) (st : RiskState) (account : AccountInfo) :
    DrawdownCheck × RiskState :=
  let max_equity := ddMaxEquity st account
  let drawdown := ddValue max_equity account.total
  if drawdown ≥ cfg.max_drawdown then
    ({ approved := false, reason := .maxDrawdownReached drawdown, drawdown := drawdown
       warnings := [.tradingPausedWarn] },
     { is_paused := true, pause_reason := some (.maxDrawdownReached drawdown)
       max_equity := max_equity })
  else
    ({ approved := true, reason := .drawdownAcceptable, drawdown := drawdown
       warnings := if drawdown ≥ cfg.pause_threshold then [.highDrawdown drawdown] else [] },
     { st with max_equity := max_equity })

/-- Result of `_check_account_balance` (it returns no warnings; the 20%
branch only logs). -/
structure BalanceCheck where
  approved : Bool
  reason : RMsg
deriving Repr, DecidableEq

/-- `RiskManager._check_account_balance`. -/
def checkAccountBalance (account : AccountInfo) : BalanceCheck :=
  if 0 < account.total ∧ account.available < account.total * (1/10) then
    { approved := false, reason := .insufficientBalance account.available }
  else
    { approved := true, reason := .balanceSufficient }

/-- Stages 2–4 of `validate_signal` (everything after the sentiment stage),
taking the multiplier and warnings accumulated so far.  Note the source
extends `warnings` with the liquidation and drawdown warnings but, on the
liquidation/drawdown rejection paths, returns only that check's own
warnings. -/
def validateTail (cfg : RiskConfig) (st : RiskState) (account : AccountInfo)
    (positions : Option (List Unit)) (mult : ℚ) (warnings : List RMsg) :
    RiskDecision × RiskState :=
  let liq := checkLiquidationRisk cfg account positions
  if liq.approved = false then
    ({ approved := false, reason := liq.reason, position_size_multiplier := 0
       warnings := liq.warnings }, st)
  else
    let warnings := warnings ++ liq.warnings
    let mult := if liq.risk_rate > 1/10 then mult * (1/2) else mult
    let warnings := if liq.risk_rate > 1/10
                    then warnings ++ [.highRiskRateReduce liq.risk_rate] else warnings
    let dd := checkDrawdown cfg st account
    if dd.1.approved = false then
      ({ approved := false, reason := dd.1.reason, position_size_multiplier := 0
         warnings := dd.1.warnings }, dd.2)
    else
      let warnings := warnings ++ dd.1.warnings
      let bal := checkAccountBalance account
      if bal.approved = false then
        ({ approved := false, reason := bal.reason, position_size_multiplier := 0
           warnings := warnings }, dd.2)
      else
        ({ approved := true, reason := .allChecksPassed
           position_size_multiplier := mult, warnings := warnings }, dd.2)

/-- `RiskManager.validate_signal`.  The sentiment stage runs only for buy
signals with the filter enabled; its warnings are *not* merged into the
accumulated warnings on the approved path (only the < −0.2 reduction
warning is appended). -/
def validateSignal (cfg : RiskConfig) (st : RiskState) (signal : Signal)
    (account : AccountInfo) (positions : Option (List Unit))
    (sentiment : Option SentimentData) : RiskDecision × RiskState :=
  if st.is_paused then
    ({ approved := false, reason := .tradingPaused, position_size_multiplier := 0
       warnings := [] }, st)
  else if cfg.sentiment_enabled ∧ signal.direction = "buy" then
    let sent := checkSentiment cfg sentiment
    if sent.approved = false then
      ({ approved := false, reason := sent.reason, position_size_multiplier := 0
         warnings := sent.warnings }, st)
    else
      let mult := if sent.sentiment_score < -(1/5) then (1 : ℚ) * (7/10) else 1
      let warnings := if sent.sentiment_score < -(1/5)
                      then [RMsg.sentimentNegativeReduce sent.sentiment_score] else []
      validateTail cfg st account positions mult warnings
  else
    validateTail cfg st account positions 1 []

/-- One `evaluate` call's inputs. -/
structure GateInput where
  signal : Signal
  account : AccountInfo
  positions : Option (List Unit)
  sentiment : Option SentimentData

/-- A sequence of `validate_signal` calls threading the gate state,
collecting every decision. -/
def validateSeq (cfg : RiskConfig) : RiskState → List GateInput →
    List RiskDecision × RiskState
  | st, [] => ([], st)
  | st, inp :: rest =>
    let r := validateSignal cfg st inp.signal inp.account inp.positions inp.sentiment
    let rs := validateSeq cfg r.2 rest
    (r.1 :: rs.1, rs.2)

/-- On a paused state, `validate_signal` rejects with multiplier 0 and
leaves the state untouched. -/
theorem validateSignal_paused (cfg : RiskConfig) (st : RiskState) (signal : Signal)
    (account : AccountInfo) (positions : Option (List Unit))
    (sentiment : Option SentimentData) (hp : st.is_paused = true) :
    validateSignal cfg st signal account positions sentiment =
      ({ approved := false, reason := .tradingPaused, position_size_multiplier := 0
         warnings := [] }, st) := by
  simp only [validateSignal, hp, if_true]

/-- On a paused state, every decision of a call sequence rejects with
multiplier 0 and the final state is still the initial one. -/
theorem validateSeq_paused (cfg : RiskConfig) (st : RiskState)
    (inps : List GateInput) (hp : st.is_paused = true) :
    (∀ d ∈ (validateSeq cfg st inps).1,
        d.approved = false ∧ d.position_size_multiplier = 0) ∧
    (validateSeq cfg st inps).2 = st := by
  induction inps with
  | nil => simp [validateSeq]
  | cons inp rest ih =>
    simp only [validateSeq, validateSignal_paused cfg st inp.signal inp.account
      inp.positions inp.sentiment hp, List.mem_cons]
    refine ⟨?_, ih.2⟩
    rintro d (rfl | hd)
    · exact ⟨rfl, rfl⟩
    · exact ih.1 d hd

/-- If the drawdown check rejects, the state it returns is paused. -/
theorem checkDrawdown_reject_paused (cfg : RiskConfig) (st : RiskState)
    (account : AccountInfo) (h : (checkDrawdown cfg st account).1.approved = false) :
    (checkDrawdown cfg st account).2.is_paused = true := by
  simp only [checkDrawdown] at h ⊢
  split at h <;> simp_all

/-- When the liquidation check passes and the drawdown check rejects, the
tail of `validate_signal` rejects with multiplier 0 and the drawdown check's
mutated state. -/
theorem validateTail_dd_reject (cfg : RiskConfig) (st : RiskState)
    (account : AccountInfo) (positions : Option (List Unit)) (mult : ℚ)
    (warnings : List RMsg)
    (hliq : (checkLiquidationRisk cfg account positions).approved = true)
    (hdd : (checkDrawdown cfg st account).1.approved = false) :
    validateTail cfg st account positions mult warnings =
      ({ approved := false, reason := (checkDrawdown cfg st account).1.reason
         position_size_multiplier := 0
         warnings := (checkDrawdown cfg st account).1.warnings },
       (checkDrawdown cfg st account).2) := by
  simp only [validateTail, hliq, hdd, Bool.true_eq_false, if_false, if_true]

end RiskEngine

namespace RiskEngine

/-- C1: sticky pause.  (a) On a paused state every `validate_signal` call
returns `approved=false` with multiplier 0 and leaves the state unchanged,
and so does every call of any subsequent sequence — pause persists until an
explicit `resume_trading`.  (b) No `validate_signal` call ever clears
`is_paused`.  (c) If a call on an unpaused state reaches the drawdown check
and that check observes `drawdown ≥ max_drawdown`, the call rejects with
multiplier 0 and the resulting state is paused. -/
theorem gate_sticky_pause (cfg : RiskConfig) (st : RiskState) (signal : Signal)
    (account : AccountInfo) (positions : Option (List Unit))
    (sentiment : Option SentimentData) (inps : List GateInput) :
    (st.is_paused = true →
      (validateSignal cfg st signal account positions sentiment).1.approved = false ∧
      (validateSignal cfg st signal account positions sentiment).1.position_size_multiplier = 0 ∧
      (validateSignal cfg st signal account positions sentiment).2 = st ∧
      (∀ d ∈ (validateSeq cfg st inps).1,
          d.approved = false ∧ d.position_size_multiplier = 0) ∧
      (validateSeq cfg st inps).2 = st) ∧
    (st.is_paused = true →
      (validateSignal cfg st signal account positions sentiment).2.is_paused = true) ∧
    (st.is_paused = false →
      (¬ (cfg.sentiment_enabled ∧ signal.direction = "buy") ∨
        (checkSentiment cfg sentiment).approved = true) →
      (checkLiquidationRisk cfg account positions).approved = true →
      (checkDrawdown cfg st account).1.approved = false →
      (validateSignal cfg st signal account positions sentiment).1.approved = false ∧
      (validateSignal cfg st signal account positions sentiment).1.position_size_multiplier = 0 ∧
      (validateSignal cfg st signal account positions sentiment).2.is_paused = true) := by
  refine ⟨?_, ?_, ?_⟩
  · intro hp
    rw [validateSignal_paused cfg st signal account positions sentiment hp]
    exact ⟨rfl, rfl, rfl, (validateSeq_paused cfg st inps hp).1,
      (validateSeq_paused cfg st inps hp).2⟩
  · intro hp
    rw [validateSignal_paused cfg st signal account positions sentiment hp]
    exact hp
  · intro hp hsent hliq hdd
    have hpaused := checkDrawdown_reject_paused cfg st account hdd
    have htail : ∀ mult warnings,
        (validateTail cfg st account positions mult warnings).1.approved = false ∧
        (validateTail cfg st account positions mult warnings).1.position_size_multiplier = 0 ∧
        (validateTail cfg st account positions mult warnings).2.is_paused = true := by
      intro mult warnings
      rw [validateTail_dd_reject cfg st account positions mult warnings hliq hdd]
      exact ⟨rfl, rfl, hpaused⟩
    by_cases happ : cfg.sentiment_enabled ∧ signal.direction = "buy"
    · rcases hsent with h | h
      · exact absurd happ h
      · simp only [validateSignal, hp, Bool.false_eq_true, if_false, if_pos happ, h,
          Bool.true_eq_false]
        exact htail _ _
    · simp only [validateSignal, hp, Bool.false_eq_true, if_false, if_neg happ]
      exact htail 1 []

/-- C1 witness.  First conjunct: spec scenario 5 — high-water 10000, total
8400, drawdown 0.16 ≥ 0.15, on a sell signal with no positions: the call
rejects and pauses the gate.  Second conjunct: on an already-paused state a
call (and a one-call sequence) rejects with multiplier 0 and keeps the
state. -/
theorem gate_sticky_pause_witness :
    (let st : RiskState := { is_paused := false, pause_reason := none, max_equity := 10000 }
     let signal : Signal :=
       { direction := "sell", entry_price := 100, stop_loss := 102, strength := "strong" }
     let account : AccountInfo := { total := 8400, available := 8400, used := 0 }
     st.is_paused = false ∧
     (¬ (defaultRiskConfig.sentiment_enabled ∧ signal.direction = "buy") ∨
       (checkSentiment defaultRiskConfig none).approved = true) ∧
     (checkLiquidationRisk defaultRiskConfig account none).approved = true ∧
     (checkDrawdown defaultRiskConfig st account).1.approved = false ∧
     (validateSignal defaultRiskConfig st signal account none none).1.approved = false ∧
     (validateSignal defaultRiskConfig st signal account none none).1.position_size_multiplier = 0 ∧
     (validateSignal defaultRiskConfig st signal account none none).2.is_paused = true) ∧
    (let stp : RiskState :=
       { is_paused := true, pause_reason := some (.maxDrawdownReached (4/25))
         max_equity := 10000 }
     let signal : Signal :=
       { direction := "buy", entry_price := 100, stop_loss := 98, strength := "strong" }
     let account : AccountInfo := { total := 10000, available := 10000, used := 0 }
     stp.is_paused = true ∧
     (validateSignal defaultRiskConfig stp signal account none none).1.approved = false ∧
     (validateSignal defaultRiskConfig stp signal account none none).1.position_size_multiplier = 0 ∧
     (validateSignal defaultRiskConfig stp signal account none none).2 = stp ∧
     (∀ d ∈ (validateSeq defaultRiskConfig stp
       [{ signal := signal, account := account, positions := none, sentiment := none }]).1,
         d.approved = false ∧ d.position_size_multiplier = 0)) := by
  constructor
  · have hne : ¬ (defaultRiskConfig.sentiment_enabled ∧ ("sell" : String) = "buy") := by
      simp
    have hliq : (checkLiquidationRisk defaultRiskConfig
        { total := 8400, available := 8400, used := 0 } none).approved = true := by
      simp [checkLiquidationRisk]
    have hdd : (checkDrawdown defaultRiskConfig
        { is_paused := false, pause_reason := none, max_equity := 10000 }
        { total := 8400, available := 8400, used := 0 }).1.approved = false := by
      norm_num [checkDrawdown, ddMaxEquity, ddValue, defaultRiskConfig]
    have h := (gate_sticky_pause defaultRiskConfig
      { is_paused := false, pause_reason := none, max_equity := 10000 }
      { direction := "sell", entry_price := 100, stop_loss := 102, strength := "strong" }
      { total := 8400, available := 8400, used := 0 } none none []).2.2
      rfl (Or.inl hne) hliq hdd
    exact ⟨rfl, Or.inl hne, hliq, hdd, h.1, h.2.1, h.2.2⟩
  · have h := (gate_sticky_pause defaultRiskConfig
      { is_paused := true, pause_reason := some (.maxDrawdownReached (4/25))
        max_equity := 10000 }
      { direction := "buy", entry_price := 100, stop_loss := 98, strength := "strong" }
      { total := 10000, available := 10000, used := 0 } none none
      [{ signal := { direction := "buy", entry_price := 100, stop_loss := 98,
                     strength := "strong" }
         account := { total := 10000, available := 10000, used := 0 }
         positions := none, sentiment := none }]).1 rfl
    exact ⟨rfl, h.1, h.2.1, h.2.2.1, h.2.2.2.1⟩

/-- C6 (code bug): for a buy signal whose sentiment reading passes both
rejection thresholds with `fud_ratio = 0.4 > 0.30`, `_check_sentiment`
produces the high-FUD warning, yet `validate_signal` approves with an empty
warnings list — the sentiment warnings are dropped on the approved path
(`validate_signal` never extends its accumulated warnings with
`sentiment_result['warnings']`). -/
theorem gate_drops_high_fud_warning :
    (checkSentiment defaultRiskConfig (some { score := 0, fud_ratio := 2/5 })).warnings =
      [RMsg.highFudRatio (2/5)] ∧
    (validateSignal defaultRiskConfig
        { is_paused := false, pause_reason := none, max_equity := 0 }
        { direction := "buy", entry_price := 100, stop_loss := 98, strength := "strong" }
        { total := 10000, available := 10000, used := 0 } none
        (some { score := 0, fud_ratio := 2/5 })).1.approved = true ∧
    (validateSignal defaultRiskConfig
        { is_paused := false, pause_reason := none, max_equity := 0 }
        { direction := "buy", entry_price := 100, stop_loss := 98, strength := "strong" }
        { total := 10000, available := 10000, used := 0 } none
        (some { score := 0, fud_ratio := 2/5 })).1.warnings = [] := by
  refine ⟨by norm_num [checkSentiment, defaultRiskConfig], ?_, ?_⟩ <;>
    norm_num [validateSignal, validateTail, checkSentiment, checkLiquidationRisk,
      checkDrawdown, ddMaxEquity, ddValue, checkAccountBalance, defaultRiskConfig]

end RiskEngine

namespace RiskEngine

/-- C2: on the concrete sizing input of spec scenario 1
(`equity=10000`, base 10%, max 30%, risk 2%, `atr/price=0.005`,
`strength="strong"`, `risk_multiplier=1`, `entry=100`, `stop=98`),
`calculate_position_size` returns `base_size=1000`, `adjusted_size=1800`
(volatility multiplier 1.5, signal multiplier 1.2), `stop_distance=0.02`,
risk cap 10000, position cap 3000, `position_value=1800`, `quantity=18`,
`risk_amount=36`. -/
theorem sizer_scenario1_exact :
    calculatePositionSize defaultSizerConfig 10000 scenario1Signal scenario1Vol 1 =
      some { position_value := 1800, quantity := 18, base_size := 1000,
             adjusted_size := 1800, risk_amount := 36,
             breakdown := { volatility_multiplier := 3/2, signal_multiplier := 6/5,
                            risk_multiplier := 1, combined_multiplier := 9/5,
                            stop_distance_pct := 1/50, max_position_limit := 3000,
                            max_risk_limit := 10000, limiting_factor := .lfNone } } := by
  norm_num [calculatePositionSize, defaultSizerConfig, scenario1Signal, scenario1Vol,
    calcVolatilityMultiplier, calcSignalMultiplier, getLimitingFactor, abs,
    sup_eq_max, max_def, min_def]

/-- C9: for every positive account equity and every signal with positive entry
price, `calculate_position_size` succeeds and the returned quantity times the
entry price equals the returned position value exactly (in the rational
model of float arithmetic). -/
theorem sizer_quantity_times_entry_eq_value (cfg : SizerConfig) (account_equity : ℚ)
    (signal : Signal) (volatility : Volatility) (risk_multiplier : ℚ)
    (heq : 0 < account_equity) (hentry : 0 < signal.entry_price) :
    ∃ r : SizingResult,
      calculatePositionSize cfg account_equity signal volatility risk_multiplier =
        some r ∧
      r.quantity * signal.entry_price = r.position_value := by
  have h0 : ¬ (signal.entry_price = 0 ∨ account_equity = 0) := by
    push_neg
    exact ⟨ne_of_gt hentry, ne_of_gt heq⟩
  simp only [calculatePositionSize, if_neg h0]
  exact ⟨_, rfl, div_mul_cancel₀ _ (ne_of_gt hentry)⟩

/-- C9 witness at spec scenario 1: `18 * 100 = 1800`. -/
theorem sizer_quantity_times_entry_eq_value_witness :
    (0 : ℚ) < 10000 ∧ (0 : ℚ) < scenario1Signal.entry_price ∧
    ∃ r : SizingResult,
      calculatePositionSize defaultSizerConfig 10000 scenario1Signal scenario1Vol 1 =
        some r ∧
      r.quantity * scenario1Signal.entry_price = r.position_value :=
  ⟨by norm_num, by norm_num [scenario1Signal],
    sizer_quantity_times_entry_eq_value defaultSizerConfig 10000 scenario1Signal
      scenario1Vol 1 (by norm_num) (by norm_num [scenario1Signal])⟩

/-- C7 counterexample: with a zero entry price the source code does divide by
zero (`stop_distance = abs(entry_price - stop_loss) / entry_price` and
`quantity = final_size / entry_price` both divide by `entry_price`), raising
`ZeroDivisionError`; the embedding therefore returns `none` instead of a
result, refuting "for zero entry_price the computation performs no division
by zero". -/
theorem sizer_zero_entry_divides_by_zero :
    calculatePositionSize defaultSizerConfig 10000
      { direction := "buy", entry_price := 0, stop_loss := 98, strength := "strong" }
      scenario1Vol 1 = none := by
  simp [calculatePositionSize]

/-- C7 (amended): for a signal whose stop loss equals its (nonzero) entry
price, the zero stop distance makes the risk cap unconstrained — the code
sets `max_risk_size = adjusted_size` instead of dividing by zero — and the
final position value is `min(adjusted_size, max_position_cap)`; but for a
zero entry price the code does divide by zero (raises), so no result is
produced there. -/
theorem sizer_zero_stop_distance_unconstrained (cfg : SizerConfig)
    (account_equity : ℚ) (signal : Signal) (volatility : Volatility)
    (risk_multiplier : ℚ) (heq : account_equity ≠ 0)
    (hentry : signal.entry_price ≠ 0) (hstop : signal.stop_loss = signal.entry_price) :
    ∃ r : SizingResult,
      calculatePositionSize cfg account_equity signal volatility risk_multiplier =
        some r ∧
      r.breakdown.stop_distance_pct = 0 ∧
      r.breakdown.max_risk_limit = r.adjusted_size ∧
      r.position_value = min r.adjusted_size (account_equity * cfg.max_position_pct) := by
  have h0 : ¬ (signal.entry_price = 0 ∨ account_equity = 0) := by
    push_neg
    exact ⟨hentry, heq⟩
  have hdist : |signal.entry_price - signal.stop_loss| / signal.entry_price = 0 := by
    rw [hstop, sub_self, abs_zero, zero_div]
  simp only [calculatePositionSize, if_neg h0, hdist, lt_irrefl, if_false]
  refine ⟨_, rfl, rfl, rfl, ?_⟩
  rw [← min_assoc, min_self]

/-- C7 amended witness: equity 10000, entry = stop = 100; the position value
is capped only by the adjusted size and the 30% position cap. -/
theorem sizer_zero_stop_distance_unconstrained_witness :
    (10000 : ℚ) ≠ 0 ∧
    ({ direction := "buy", entry_price := 100, stop_loss := 100,
       strength := "strong" } : Signal).entry_price ≠ 0 ∧
    ∃ r : SizingResult,
      calculatePositionSize defaultSizerConfig 10000
        { direction := "buy", entry_price := 100, stop_loss := 100,
          strength := "strong" } scenario1Vol 1 = some r ∧
      r.breakdown.stop_distance_pct = 0 ∧
      r.breakdown.max_risk_limit = r.adjusted_size ∧
      r.position_value = min r.adjusted_size (10000 * defaultSizerConfig.max_position_pct) :=
  ⟨by norm_num, by norm_num,
    sizer_zero_stop_distance_unconstrained defaultSizerConfig 10000
      { direction := "buy", entry_price := 100, stop_loss := 100, strength := "strong" }
      scenario1Vol 1 (by norm_num) (by norm_num) rfl⟩

end RiskEngine

namespace RiskEngine

/-! ## StopLossManager (`stop_loss_manager.py`) -/

/-- `StopLossManager` configuration (`default_pct`, `breakout_pct`,
`trailing_enabled`, `trailing_activation`, `trailing_distance`). -/
structure SLConfig where
  default_stop_pct : ℚ
  breakout_stop_pct : ℚ
  trailing_enabled : Bool
  trailing_activation_pct : ℚ
  trailing_distance_pct : ℚ
deriving Repr, DecidableEq

/-- The position fields read by `initialize_stop_loss`. -/
structure SLPosition where
  side : String
  entry_price : ℚ
deriving Repr, DecidableEq

/-- Per-symbol stop tracking record (`stop_info`). -/
structure StopInfo where
  fixed_stop : ℚ
  trailing_stop : ℚ
  trailing_activated : Bool
  highest_price : ℚ
  lowest_price : ℚ
  entry_price : ℚ
  side : String
  stop_pct : ℚ
deriving Repr, DecidableEq

/-- `'fixed'` / `'trailing'` stop-type strings. -/
inductive StopType where
  | fixed
  | trailing
deriving Repr, DecidableEq

/-- `update_stop_loss` result.  The untracked-symbol return carries only
`stop_triggered`; the optional fields are `none` there, and `stop_price` /
`stop_type` are `none` on the non-triggered returns, mirroring the absent
dict keys. -/
structure StopResult where
  stop_triggered : Bool
  stop_price : Option ℚ
  stop_type : Option StopType
  pnl_pct : Option ℚ
deriving Repr, DecidableEq

/-- `StopLossManager.initialize_stop_loss`: breakout strategy uses
`breakout_pct`, anything else the default; fixed stop below (buy) or above
(any other side) the entry; the trailing stop starts at the fixed stop. -/
def initializeStopLoss (cfg : SLConfig) (position : SLPosition) (strategy : String) :
    StopInfo :=
  let stop_pct := if strategy = "Breakout" then cfg.breakout_stop_pct
                  else cfg.default_stop_pct
  let fixed_stop := if position.side = "buy" then position.entry_price * (1 - stop_pct)
                    else position.entry_price * (1 + stop_pct)
  { fixed_stop := fixed_stop
    trailing_stop := fixed_stop
    trailing_activated := false
    highest_price := position.entry_price
    lowest_price := position.entry_price
    entry_price := position.entry_price
    side := position.side
    stop_pct := stop_pct }

/-- The directional pnl of `update_stop_loss`.  ℚ-division is total; the
Python code raises on `entry_price = 0`, which the manager-level wrapper
`slUpdate` models — the invariant theorems assume `0 < entry_price`. -/
def slPnl (info : StopInfo) (current_price : ℚ) : ℚ :=
  if info.side = "buy" then (current_price - info.entry_price) / info.entry_price
  else (info.entry_price - current_price) / info.entry_price

/-- The state mutation of `update_stop_loss` (sections 1–2 of the source):
possible one-way activation, then a favourable-only extreme-price update
that recomputes the trailing stop. -/
def slStep (cfg : SLConfig) (info : StopInfo) (current_price : ℚ) : StopInfo :=
  let pnl_pct := slPnl info current_price
  let info1 := if cfg.trailing_enabled ∧ info.trailing_activated = false ∧
                  pnl_pct ≥ cfg.trailing_activation_pct
               then { info with trailing_activated := true } else info
  if info1.trailing_activated then
    if info1.side = "buy" then
      if current_price > info1.highest_price then
        { info1 with highest_price := current_price
                     trailing_stop := current_price * (1 - cfg.trailing_distance_pct) }
      else info1
    else
      if current_price < info1.lowest_price then
        { info1 with lowest_price := current_price
                     trailing_stop := current_price * (1 + cfg.trailing_distance_pct) }
      else info1
  else info1

/-- The trigger test of `update_stop_loss` (section 3), evaluated on the
already-mutated `stop_info`: buy triggers at price ≤ the active stop, any
other side at price ≥ it; the active stop is the trailing stop once
activated, the fixed stop before. -/
def slTrigger (info : StopInfo) (current_price pnl_pct : ℚ) : StopResult :=
  if info.side = "buy" then
    if info.trailing_activated then
      if current_price ≤ info.trailing_stop then
        { stop_triggered := true, stop_price := some info.trailing_stop
          stop_type := some .trailing, pnl_pct := some pnl_pct }
      else { stop_triggered := false, stop_price := none, stop_type := none
             pnl_pct := some pnl_pct }
    else
      if current_price ≤ info.fixed_stop then
        { stop_triggered := true, stop_price := some info.fixed_stop
          stop_type := some .fixed, pnl_pct := some pnl_pct }
      else { stop_triggered := false, stop_price := none, stop_type := none
             pnl_pct := some pnl_pct }
  else
    if info.trailing_activated then
      if current_price ≥ info.trailing_stop then
        { stop_triggered := true, stop_price := some info.trailing_stop
          stop_type := some .trailing, pnl_pct := some pnl_pct }
      else { stop_triggered := false, stop_price := none, stop_type := none
             pnl_pct := some pnl_pct }
    else
      if current_price ≥ info.fixed_stop then
        { stop_triggered := true, stop_price := some info.fixed_stop
          stop_type := some .fixed, pnl_pct := some pnl_pct }
      else { stop_triggered := false, stop_price := none, stop_type := none
             pnl_pct := some pnl_pct }

/-- `StopLossManager.update_stop_loss` on a tracked symbol's record. -/
def updateStopLoss (cfg : SLConfig) (info : StopInfo) (current_price : ℚ) :
    StopResult × StopInfo :=
  let info' := slStep cfg info current_price
  (slTrigger info' current_price (slPnl info current_price), info')

/-- The per-symbol tracking map `position_stops`. -/
abbrev SLState := Sym → Option StopInfo

/-- `StopLossManager.update_stop_loss` at the manager level.  An untracked
symbol yields the benign `{'stop_triggered': False}` result and leaves the
map untouched; `none` models the `ZeroDivisionError` a tracked record with
`entry_price = 0` would raise. -/
def slUpdate (cfg : SLConfig) (stops : SLState) (symbol : Sym) (current_price : ℚ) :
    Option (StopResult × SLState) :=
  match stops symbol with
  | none => some ({ stop_triggered := false, stop_price := none, stop_type := none
                    pnl_pct := none }, stops)
  | some info =>
    if info.entry_price = 0 then none
    else
      let r := updateStopLoss cfg info current_price
      some (r.1, fun s => if s = symbol then some r.2 else stops s)

/-- Folding `update_stop_loss` over a price sequence, keeping the record. -/
def slRun (cfg : SLConfig) (info : StopInfo) (prices : List ℚ) : StopInfo :=
  prices.foldl (fun i p => (updateStopLoss cfg i p).2) info

end RiskEngine

namespace RiskEngine

/-- One update never changes the side of a tracked record. -/
theorem slStep_side (cfg : SLConfig) (info : StopInfo) (p : ℚ) :
    (slStep cfg info p).side = info.side := by
  simp only [slStep]
  split_ifs <;> simp_all

/-- One update never changes the entry price of a tracked record. -/
theorem slStep_entry (cfg : SLConfig) (info : StopInfo) (p : ℚ) :
    (slStep cfg info p).entry_price = info.entry_price := by
  simp only [slStep]
  split_ifs <;> simp_all

/-- Activation is one-way at the step level. -/
theorem slStep_activated_mono (cfg : SLConfig) (info : StopInfo) (p : ℚ)
    (h : info.trailing_activated = true) :
    (slStep cfg info p).trailing_activated = true := by
  simp only [slStep]
  split_ifs <;> simp_all

/-- The highest price never decreases in one step. -/
theorem slStep_highest_mono (cfg : SLConfig) (info : StopInfo) (p : ℚ) :
    info.highest_price ≤ (slStep cfg info p).highest_price := by
  simp only [slStep]
  split_ifs <;> simp_all <;> linarith

/-- The lowest price never increases in one step. -/
theorem slStep_lowest_mono (cfg : SLConfig) (info : StopInfo) (p : ℚ) :
    (slStep cfg info p).lowest_price ≤ info.lowest_price := by
  simp only [slStep]
  split_ifs <;> simp_all <;> linarith

/-- The inductive invariant of the stop tracker: before activation the
extreme price still sits at the entry; after activation the trailing stop
is the extreme price shifted by the trailing distance. -/
def SLInv (cfg : SLConfig) (info : StopInfo) : Prop :=
  (info.trailing_activated = false →
     (info.side = "buy" → info.highest_price = info.entry_price) ∧
     (info.side ≠ "buy" → info.lowest_price = info.entry_price)) ∧
  (info.trailing_activated = true →
     (info.side = "buy" →
        info.trailing_stop = info.highest_price * (1 - cfg.trailing_distance_pct)) ∧
     (info.side ≠ "buy" →
        info.trailing_stop = info.lowest_price * (1 + cfg.trailing_distance_pct)))

/-- `initialize_stop_loss` establishes the invariant. -/
theorem slInv_init (cfg : SLConfig) (position : SLPosition) (strategy : String) :
    SLInv cfg (initializeStopLoss cfg position strategy) := by
  constructor
  · intro _
    exact ⟨fun _ => rfl, fun _ => rfl⟩
  · intro h
    simp [initializeStopLoss] at h

/-- A positive pnl threshold met at activation implies a strictly
favourable price move (needs a positive entry price). -/
theorem slPnl_pos_buy (info : StopInfo) (p : ℚ) (hside : info.side = "buy")
    (hentry : 0 < info.entry_price) (h : 0 < slPnl info p) :
    info.entry_price < p := by
  rw [slPnl, if_pos hside] at h
  have h2 := mul_pos h hentry
  rw [div_mul_cancel₀ _ (ne_of_gt hentry)] at h2
  linarith

/-- The sell-side counterpart of `slPnl_pos_buy`. -/
theorem slPnl_pos_sell (info : StopInfo) (p : ℚ) (hside : ¬ info.side = "buy")
    (hentry : 0 < info.entry_price) (h : 0 < slPnl info p) :
    p < info.entry_price := by
  rw [slPnl, if_neg hside] at h
  have h2 := mul_pos h hentry
  rw [div_mul_cancel₀ _ (ne_of_gt hentry)] at h2
  linarith

/-- One step preserves the invariant (positive entry price and a positive
activation threshold rule out activating without a strict price
improvement). -/
theorem slStep_inv (cfg : SLConfig) (info : StopInfo) (p : ℚ)
    (hentry : 0 < info.entry_price) (hact : 0 < cfg.trailing_activation_pct)
    (hinv : SLInv cfg info) : SLInv cfg (slStep cfg info p) := by
  by_cases hc : cfg.trailing_enabled ∧ info.trailing_activated = false ∧
      slPnl info p ≥ cfg.trailing_activation_pct
  · have hpnl : 0 < slPnl info p := lt_of_lt_of_le hact hc.2.2
    by_cases hbuy : info.side = "buy"
    · have hlt : info.highest_price < p := by
        rw [(hinv.1 hc.2.1).1 hbuy]
        exact slPnl_pos_buy info p hbuy hentry hpnl
      simp only [slStep, slPnl] at *
      rw [if_pos hc]
      simp only [hbuy, if_pos rfl, if_true, hlt, gt_iff_lt, if_pos hlt]
      refine ⟨by simp, fun _ => ⟨fun _ => rfl, fun hne => absurd hbuy (by exact fun h => hne (by simp [h]))⟩⟩
    · have hlt : p < info.lowest_price := by
        rw [(hinv.1 hc.2.1).2 hbuy]
        exact slPnl_pos_sell info p hbuy hentry hpnl
      simp only [slStep, slPnl] at *
      rw [if_pos hc]
      simp only [hbuy, if_false, if_neg hbuy, hlt, if_pos hlt]
      refine ⟨by simp, fun _ => ⟨fun hb => absurd hb hbuy, fun _ => rfl⟩⟩
  · simp only [slStep]
    rw [if_neg hc]
    by_cases hacti : info.trailing_activated
    · rw [if_pos hacti]
      by_cases hbuy : info.side = "buy"
      · rw [if_pos hbuy]
        by_cases hp : p > info.highest_price
        · rw [if_pos hp]
          exact ⟨by simp [hacti], fun _ => ⟨fun _ => rfl,
            fun hne => absurd hbuy hne⟩⟩
        · rw [if_neg hp]
          exact hinv
      · rw [if_neg hbuy]
        by_cases hp : p < info.lowest_price
        · rw [if_pos hp]
          exact ⟨by simp [hacti], fun _ => ⟨fun hb => absurd hb hbuy, fun _ => rfl⟩⟩
        · rw [if_neg hp]
          exact hinv
    · rw [if_neg hacti]
      exact hinv

end RiskEngine

namespace RiskEngine

/-- `updateStopLoss` mutates the record exactly as `slStep`. -/
theorem updateStopLoss_snd (cfg : SLConfig) (info : StopInfo) (p : ℚ) :
    (updateStopLoss cfg info p).2 = slStep cfg info p := rfl

/-- A run over concatenated price lists is the run of the runs. -/
theorem slRun_append (cfg : SLConfig) (info : StopInfo) (l₁ l₂ : List ℚ) :
    slRun cfg info (l₁ ++ l₂) = slRun cfg (slRun cfg info l₁) l₂ := by
  simp [slRun, List.foldl_append]

/-- The side is constant along a run. -/
theorem slRun_side (cfg : SLConfig) (info : StopInfo) (l : List ℚ) :
    (slRun cfg info l).side = info.side := by
  induction l generalizing info with
  | nil => rfl
  | cons p ps ih =>
    rw [slRun, List.foldl_cons, ← slRun]
    rw [ih, updateStopLoss_snd, slStep_side]

/-- The entry price is constant along a run. -/
theorem slRun_entry (cfg : SLConfig) (info : StopInfo) (l : List ℚ) :
    (slRun cfg info l).entry_price = info.entry_price := by
  induction l generalizing info with
  | nil => rfl
  | cons p ps ih =>
    rw [slRun, List.foldl_cons, ← slRun]
    rw [ih, updateStopLoss_snd, slStep_entry]

/-- Once activated, a run keeps the tracker activated. -/
theorem slRun_activated_mono (cfg : SLConfig) (info : StopInfo) (l : List ℚ)
    (h : info.trailing_activated = true) :
    (slRun cfg info l).trailing_activated = true := by
  induction l generalizing info with
  | nil => exact h
  | cons p ps ih =>
    rw [slRun, List.foldl_cons, ← slRun]
    exact ih _ (by rw [updateStopLoss_snd]; exact slStep_activated_mono cfg info p h)

/-- The highest price never decreases along a run. -/
theorem slRun_highest_mono (cfg : SLConfig) (info : StopInfo) (l : List ℚ) :
    info.highest_price ≤ (slRun cfg info l).highest_price := by
  induction l generalizing info with
  | nil => exact le_refl _
  | cons p ps ih =>
    rw [slRun, List.foldl_cons, ← slRun]
    refine le_trans ?_ (ih _)
    rw [updateStopLoss_snd]
    exact slStep_highest_mono cfg info p

/-- The lowest price never increases along a run. -/
theorem slRun_lowest_mono (cfg : SLConfig) (info : StopInfo) (l : List ℚ) :
    (slRun cfg info l).lowest_price ≤ info.lowest_price := by
  induction l generalizing info with
  | nil => exact le_refl _
  | cons p ps ih =>
    rw [slRun, List.foldl_cons, ← slRun]
    refine le_trans (ih _) ?_
    rw [updateStopLoss_snd]
    exact slStep_lowest_mono cfg info p

/-- A run preserves the tracker invariant. -/
theorem slRun_inv (cfg : SLConfig) (info : StopInfo) (l : List ℚ)
    (hentry : 0 < info.entry_price) (hact : 0 < cfg.trailing_activation_pct)
    (hinv : SLInv cfg info) : SLInv cfg (slRun cfg info l) := by
  induction l generalizing info with
  | nil => exact hinv
  | cons p ps ih =>
    rw [slRun, List.foldl_cons, ← slRun, updateStopLoss_snd]
    exact ih _ (by rw [slStep_entry]; exact hentry) (slStep_inv cfg info p hentry hact hinv)

end RiskEngine

namespace RiskEngine

/-- Spec scenario 2 stop config: 2% default stop, trailing activation 1%,
trailing distance 1%. -/
def scenario2SLConfig : SLConfig where
  default_stop_pct := 1/50
  breakout_stop_pct := 3/100
  trailing_enabled := true
  trailing_activation_pct := 1/100
  trailing_distance_pct := 1/100

/-- C3: stop-loss tracking invariants.  From initialization, over any price
sequence (and any continuation of it): once `trailing_activated` is true it
stays true; `highest_price` never decreases and `lowest_price` never
increases (the extreme price moves only favourably — highest matters for
buy, lowest for any other side); and whenever the tracker is activated the
trailing stop equals the extreme price shifted by the trailing distance
(`highest*(1−d)` for buy, `lowest*(1+d)` otherwise).  Requires a positive
entry price and a positive activation threshold, as in the source defaults. -/
theorem stop_loss_tracking_invariants (cfg : SLConfig) (position : SLPosition)
    (strategy : String) (prices extra : List ℚ)
    (hentry : 0 < position.entry_price) (hact : 0 < cfg.trailing_activation_pct) :
    ((slRun cfg (initializeStopLoss cfg position strategy) prices).trailing_activated = true →
      (slRun cfg (initializeStopLoss cfg position strategy)
        (prices ++ extra)).trailing_activated = true) ∧
    (slRun cfg (initializeStopLoss cfg position strategy) prices).highest_price ≤
      (slRun cfg (initializeStopLoss cfg position strategy) (prices ++ extra)).highest_price ∧
    (slRun cfg (initializeStopLoss cfg position strategy) (prices ++ extra)).lowest_price ≤
      (slRun cfg (initializeStopLoss cfg position strategy) prices).lowest_price ∧
    ((slRun cfg (initializeStopLoss cfg position strategy) prices).trailing_activated = true →
      (position.side = "buy" →
        (slRun cfg (initializeStopLoss cfg position strategy) prices).trailing_stop =
          (slRun cfg (initializeStopLoss cfg position strategy) prices).highest_price *
            (1 - cfg.trailing_distance_pct)) ∧
      (position.side ≠ "buy" →
        (slRun cfg (initializeStopLoss cfg position strategy) prices).trailing_stop =
          (slRun cfg (initializeStopLoss cfg position strategy) prices).lowest_price *
            (1 + cfg.trailing_distance_pct))) := by
  have hinit : 0 < (initializeStopLoss cfg position strategy).entry_price := hentry
  have hinv := slRun_inv cfg _ prices hinit hact (slInv_init cfg position strategy)
  have hside : (slRun cfg (initializeStopLoss cfg position strategy) prices).side =
      position.side := by
    rw [slRun_side]
    rfl
  refine ⟨?_, ?_, ?_, ?_⟩
  · intro h
    rw [slRun_append]
    exact slRun_activated_mono cfg _ extra h
  · rw [slRun_append]
    exact slRun_highest_mono cfg _ extra
  · rw [slRun_append]
    exact slRun_lowest_mono cfg _ extra
  · intro h
    have h2 := hinv.2 h
    rw [hside] at h2
    exact h2

/-- C3 witness: spec scenario 2 — buy at 100, activation 1%, distance 1%,
price path [102, 105] and continuation [103.9]. -/
theorem stop_loss_tracking_invariants_witness :
    (0 : ℚ) < ({ side := "buy", entry_price := 100 } : SLPosition).entry_price ∧
    (0 : ℚ) < scenario2SLConfig.trailing_activation_pct ∧
    (((slRun scenario2SLConfig
        (initializeStopLoss scenario2SLConfig { side := "buy", entry_price := 100 }
          "default") [102, 105]).trailing_activated = true →
      (slRun scenario2SLConfig
        (initializeStopLoss scenario2SLConfig { side := "buy", entry_price := 100 }
          "default") ([102, 105] ++ [1039/10])).trailing_activated = true) ∧
    (slRun scenario2SLConfig
        (initializeStopLoss scenario2SLConfig { side := "buy", entry_price := 100 }
          "default") [102, 105]).highest_price ≤
      (slRun scenario2SLConfig
        (initializeStopLoss scenario2SLConfig { side := "buy", entry_price := 100 }
          "default") ([102, 105] ++ [1039/10])).highest_price ∧
    (slRun scenario2SLConfig
        (initializeStopLoss scenario2SLConfig { side := "buy", entry_price := 100 }
          "default") ([102, 105] ++ [1039/10])).lowest_price ≤
      (slRun scenario2SLConfig
        (initializeStopLoss scenario2SLConfig { side := "buy", entry_price := 100 }
          "default") [102, 105]).lowest_price ∧
    ((slRun scenario2SLConfig
        (initializeStopLoss scenario2SLConfig { side := "buy", entry_price := 100 }
          "default") [102, 105]).trailing_activated = true →
      (({ side := "buy", entry_price := 100 } : SLPosition).side = "buy" →
        (slRun scenario2SLConfig
          (initializeStopLoss scenario2SLConfig { side := "buy", entry_price := 100 }
            "default") [102, 105]).trailing_stop =
          (slRun scenario2SLConfig
            (initializeStopLoss scenario2SLConfig { side := "buy", entry_price := 100 }
              "default") [102, 105]).highest_price *
            (1 - scenario2SLConfig.trailing_distance_pct)) ∧
      (({ side := "buy", entry_price := 100 } : SLPosition).side ≠ "buy" →
        (slRun scenario2SLConfig
          (initializeStopLoss scenario2SLConfig { side := "buy", entry_price := 100 }
            "default") [102, 105]).trailing_stop =
          (slRun scenario2SLConfig
            (initializeStopLoss scenario2SLConfig { side := "buy", entry_price := 100 }
              "default") [102, 105]).lowest_price *
            (1 + scenario2SLConfig.trailing_distance_pct)))) :=
  ⟨by norm_num, by norm_num [scenario2SLConfig],
    stop_loss_tracking_invariants scenario2SLConfig { side := "buy", entry_price := 100 }
      "default" [102, 105] [1039/10] (by norm_num)
      (by norm_num [scenario2SLConfig])⟩

end RiskEngine

namespace RiskEngine

/-! ## TakeProfitManager (`take_profit_manager.py`) -/

/-- `_sanitize_levels`: keep only positive numeric values. -/
def sanitizeLevels (levels : List ℚ) : List ℚ := levels.filter (fun v => 0 < v)

/-- The length-matching step of `_match_length_and_normalize`: an empty
list becomes `[1.0] * length`, a short one is padded with its last value,
a long one is truncated. -/
def padOrTruncate (ratios : List ℚ) (length : Nat) : List ℚ :=
  match ratios with
  | [] => List.replicate length 1
  | r :: rs =>
    if (r :: rs).length < length then
      (r :: rs) ++ List.replicate (length - (r :: rs).length)
        ((r :: rs).getLast (by simp))
    else (r :: rs).take length

/-- `_match_length_and_normalize`: pad a short ratio list with its last
value (equal weights for an empty one) or truncate a long one, then rescale
to sum 1 (equal weights `1/length` when the padded list sums to 0). -/
def matchLengthAndNormalize (ratios : List ℚ) (length : Nat) : List ℚ :=
  if length = 0 then []
  else
    let normalized := padOrTruncate ratios length
    let total := normalized.sum
    if total = 0 then List.replicate length ((1 : ℚ) / length)
    else normalized.map (fun v => v / total)

/-- The immutable defaults computed by `TakeProfitManager.__init__`. -/
structure TPManager where
  default_levels : List ℚ
  default_ratios : List ℚ
deriving Repr, DecidableEq

/-- `TakeProfitManager.__init__` from the config's `levels` / `ratios`
(`none` for an absent key): sanitized levels falling back to
`[0.03, 0.05, 0.08]`, non-negative ratio values normalized to the level
count. -/
def tpManagerInit (cfgLevels cfgRatios : Option (List ℚ)) : TPManager :=
  let raw_levels := sanitizeLevels (cfgLevels.getD [3/100, 1/20, 2/25])
  let raw_levels := if raw_levels = [] then [(3 : ℚ)/100, 1/20, 2/25] else raw_levels
  let raw_ratios := (cfgRatios.getD []).filter (fun r => 0 ≤ r)
  { default_levels := raw_levels
    default_ratios := matchLengthAndNormalize raw_ratios raw_levels.length }

/-- The position fields read by `initialize_take_profit`. -/
structure TPPosition where
  side : Option String
  direction : Option String
  entry_price : ℚ
  qty : Option ℚ
  quantity : Option ℚ
deriving Repr, DecidableEq

/-- Python `a or b` on an optional float: `None` and `0.0` are falsy. -/
def pyOrQ (a : Option ℚ) (b : ℚ) : ℚ :=
  match a with
  | none => b
  | some x => if x = 0 then b else x

/-- Python `a or b` on an optional string: `None` and `""` are falsy. -/
def pyOrS (a : Option String) (b : String) : String :=
  match a with
  | none => b
  | some s => if s = "" then b else s

/-- `_normalize_direction`: `'sell'`/`'short'` (case-insensitive, via the
`side` field first, then `direction`) map to `'sell'`, anything else to
`'buy'`. -/
def normalizeDirection (position : TPPosition) : String :=
  let side := (pyOrS position.side (pyOrS position.direction "")).toLower
  if side = "sell" ∨ side = "short" then "sell" else "buy"

/-- `_is_level_hit`. -/
def isLevelHit (direction : String) (current_price target_price : ℚ) : Bool :=
  if direction = "buy" then decide (current_price ≥ target_price)
  else decide (current_price ≤ target_price)

/-- `_calculate_target_price`. -/
def calcTargetPrice (entry_price pct : ℚ) (direction : String) : ℚ :=
  if direction = "buy" then entry_price * (1 + pct) else entry_price * (1 - pct)

/-- One ladder level (`trigger_ts` dropped — wall clock). -/
structure TPLevel where
  index : Nat
  pct : ℚ
  price : ℚ
  ratio : ℚ
  target_qty : ℚ
  triggered : Bool
  filled_qty : ℚ
deriving Repr, DecidableEq

/-- Per-symbol take-profit record (`created_at` dropped — wall clock). -/
structure TPInfo where
  direction : String
  entry_price : ℚ
  total_qty : ℚ
  remaining_qty : ℚ
  levels : List TPLevel
  next_index : Nat
  completed : Bool
deriving Repr, DecidableEq

/-- `_prepare_levels_and_ratios`. -/
def prepareLevelsAndRatios (mgr : TPManager)
    (requested_levels requested_ratios : Option (List ℚ)) : List ℚ × List ℚ :=
  let levels := match requested_levels with
    | some l => sanitizeLevels l
    | none => []
  let levels := if levels = [] then mgr.default_levels else levels
  let ratio_candidates := match requested_ratios with
    | some rs => rs.filter (fun r => 0 ≤ r)
    | none => []
  let ratio_candidates := if ratio_candidates = [] then mgr.default_ratios
                          else ratio_candidates
  (levels, matchLengthAndNormalize ratio_candidates levels.length)

/-- The `level_infos` construction loop of `initialize_take_profit`. -/
def mkLevels (total_qty entry_price : ℚ) (direction : String) :
    Nat → List (ℚ × ℚ) → List TPLevel
  | _, [] => []
  | i, (pct, ratio) :: rest =>
    { index := i, pct := pct, price := calcTargetPrice entry_price pct direction
      ratio := ratio, target_qty := total_qty * ratio, triggered := false
      filled_qty := 0 } :: mkLevels total_qty entry_price direction (i + 1) rest

/-- `TakeProfitManager.initialize_take_profit`: the quantity is
`position.get('qty') or position.get('quantity') or 0.0`, replaced by `1.0`
when not positive; levels/ratios via `_prepare_levels_and_ratios`. -/
def initializeTakeProfit (mgr : TPManager) (position : TPPosition)
    (take_profit_pcts ratios : Option (List ℚ)) : TPInfo :=
  let direction := normalizeDirection position
  let entry_price := position.entry_price
  let raw_qty := pyOrQ position.qty (pyOrQ position.quantity 0)
  let total_qty := if raw_qty ≤ 0 then 1 else raw_qty
  let lr := prepareLevelsAndRatios mgr take_profit_pcts ratios
  { direction := direction
    entry_price := entry_price
    total_qty := total_qty
    remaining_qty := total_qty
    levels := mkLevels total_qty entry_price direction 0 (lr.1.zip lr.2)
    next_index := 0
    completed := false }

/-- One entry of the returned `triggered_levels`. -/
structure TPTriggered where
  index : Nat
  price : ℚ
  ratio : ℚ
  qty : ℚ
  pct : ℚ
deriving Repr, DecidableEq

/-- The `while` loop of `update_take_profit`, acting on the still-pending
suffix of the ladder: trigger each crossed level in order, fill
`min(target_qty, remaining)`, stop at the first non-crossed level or when
nothing remains. -/
def tpLoop (direction : String) (current_price : ℚ) :
    List TPLevel → ℚ → List TPTriggered × List TPLevel × ℚ
  | [], rem => ([], [], rem)
  | l :: ls, rem =>
    if isLevelHit direction current_price l.price then
      let f := min l.target_qty rem
      let l' := { l with filled_qty := f, triggered := true }
      let rem' := max (rem - f) 0
      let trig : TPTriggered :=
        { index := l.index, price := l.price, ratio := l.ratio, qty := f, pct := l.pct }
      if rem' ≤ 0 then ([trig], l' :: ls, rem')
      else
        let rest := tpLoop direction current_price ls rem'
        (trig :: rest.1, l' :: rest.2.1, rest.2.2)
    else ([], l :: ls, rem)

/-- `update_take_profit` result. -/
structure TPResult where
  triggered : Bool
  triggered_levels : List TPTriggered
  current_price : ℚ
  remaining_qty : ℚ
  completed : Bool
  next_level_price : Option ℚ
deriving Repr, DecidableEq

/-- `TakeProfitManager.update_take_profit` on a tracked record. -/
def updateTakeProfit (info : TPInfo) (current_price : ℚ) : TPResult × TPInfo :=
  let pre := info.levels.take info.next_index
  let suf := info.levels.drop info.next_index
  let r := tpLoop info.direction current_price suf info.remaining_qty
  let levels' := pre ++ r.2.1
  let next' := info.next_index + r.1.length
  let rem' := r.2.2
  let completed : Bool := decide (next' ≥ levels'.length ∨ rem' ≤ 0)
  let info' := { info with
                 levels := levels'
                 next_index := next'
                 remaining_qty := rem'
                 completed := completed }
  ({ triggered := !r.1.isEmpty
     triggered_levels := r.1
     current_price := current_price
     remaining_qty := rem'
     completed := completed
     next_level_price := ((levels'.drop next').head?).map TPLevel.price }, info')

/-- The per-symbol tracking map `targets`. -/
abbrev TPState := Sym → Option TPInfo

/-- `update_take_profit` at the manager level: an untracked symbol yields
the benign empty result (`triggered=false`, no levels, `remaining=0`,
`completed=false`) and leaves the map untouched. -/
def tpUpdate (targets : TPState) (symbol : Sym) (current_price : ℚ) :
    TPResult × TPState :=
  match targets symbol with
  | none =>
    ({ triggered := false, triggered_levels := [], current_price := current_price
       remaining_qty := 0, completed := false, next_level_price := none }, targets)
  | some info =>
    let r := updateTakeProfit info current_price
    (r.1, fun s => if s = symbol then some r.2 else targets s)

/-- Folding `update_take_profit` over a price sequence, keeping the record. -/
def tpRun (info : TPInfo) (prices : List ℚ) : TPInfo :=
  prices.foldl (fun i p => (updateTakeProfit i p).2) info

/-- Total filled quantity recorded on the ladder. -/
def sumFilled (info : TPInfo) : ℚ := (info.levels.map TPLevel.filled_qty).sum

end RiskEngine

namespace RiskEngine

/-- The length-matching step always returns a list of the requested length. -/
theorem padOrTruncate_length (ratios : List ℚ) (n : Nat) :
    (padOrTruncate ratios n).length = n := by
  match ratios with
  | [] => simp [padOrTruncate]
  | r :: rs =>
    rw [padOrTruncate]
    split_ifs with h
    · simp only [List.length_append, List.length_replicate]
      omega
    · simp only [List.length_take]
      omega

/-- Every element of a padded/truncated nonempty list is an element of the
original list. -/
theorem padOrTruncate_mem (r : ℚ) (rs : List ℚ) (n : Nat) (v : ℚ)
    (hv : v ∈ padOrTruncate (r :: rs) n) : v ∈ r :: rs := by
  rw [padOrTruncate] at hv
  split_ifs at hv with h
  · rcases List.mem_append.mp hv with h1 | h1
    · exact h1
    · rw [List.eq_of_mem_replicate h1]
      exact List.getLast_mem _
  · exact List.mem_of_mem_take hv

/-- Non-negative input ratios give a non-negative padded/truncated list. -/
theorem padOrTruncate_nonneg (ratios : List ℚ) (n : Nat)
    (h : ∀ r ∈ ratios, 0 ≤ r) : ∀ v ∈ padOrTruncate ratios n, 0 ≤ v := by
  intro v hv
  match ratios with
  | [] =>
    rw [padOrTruncate] at hv
    rw [List.eq_of_mem_replicate hv]
    norm_num
  | r :: rs => exact h v (padOrTruncate_mem r rs n v hv)

/-- The normalized ratio list always has the requested length. -/
theorem matchLengthAndNormalize_length (ratios : List ℚ) (n : Nat) :
    (matchLengthAndNormalize ratios n).length = n := by
  simp only [matchLengthAndNormalize]
  split_ifs with h0 ht
  · simp [h0]
  · simp
  · simp [padOrTruncate_length]

/-- For a positive requested length the normalized ratios sum to exactly 1. -/
theorem matchLengthAndNormalize_sum (ratios : List ℚ) (n : Nat) (hn : n ≠ 0) :
    (matchLengthAndNormalize ratios n).sum = 1 := by
  have hnq : (n : ℚ) ≠ 0 := Nat.cast_ne_zero.mpr hn
  simp only [matchLengthAndNormalize]
  rw [if_neg hn]
  split_ifs with ht
  · rw [List.sum_replicate, nsmul_eq_mul, mul_one_div, div_self hnq]
  · simp only [div_eq_mul_inv]
    have := List.sum_map_mul_right (padOrTruncate ratios n) id
      (padOrTruncate ratios n).sum⁻¹
    simp only [id] at this
    rw [this, List.map_id]
    exact mul_inv_cancel₀ ht

/-- Non-negative input ratios normalize to non-negative ratios. -/
theorem matchLengthAndNormalize_nonneg (ratios : List ℚ) (n : Nat)
    (h : ∀ r ∈ ratios, 0 ≤ r) : ∀ v ∈ matchLengthAndNormalize ratios n, 0 ≤ v := by
  intro v hv
  simp only [matchLengthAndNormalize] at hv
  split_ifs at hv with h0 ht
  · simp at hv
  · rw [List.eq_of_mem_replicate hv]
    positivity
  · rcases List.mem_map.mp hv with ⟨w, hw, rfl⟩
    have hwn := padOrTruncate_nonneg ratios n h w hw
    have hts : 0 ≤ (padOrTruncate ratios n).sum :=
      List.sum_nonneg (padOrTruncate_nonneg ratios n h)
    exact div_nonneg hwn hts

/-- A non-negative ratio list summing to 0 normalizes to equal weights. -/
theorem matchLengthAndNormalize_zero_sum (ratios : List ℚ) (n : Nat) (hn : n ≠ 0)
    (h : ∀ r ∈ ratios, 0 ≤ r) (hz : ratios.sum = 0) :
    matchLengthAndNormalize ratios n = List.replicate n ((1 : ℚ) / n) := by
  simp only [matchLengthAndNormalize]
  rw [if_neg hn]
  match ratios with
  | [] =>
    have hsum : (padOrTruncate ([] : List ℚ) n).sum = n := by
      rw [padOrTruncate, List.sum_replicate, nsmul_eq_mul, mul_one]
    rw [if_neg (by rw [hsum]; exact_mod_cast hn)]
    rw [hsum, padOrTruncate, List.map_replicate, one_div]
  | r :: rs =>
    have hall : ∀ x ∈ r :: rs, x = 0 :=
      fun x hx => List.all_zero_of_le_zero_le_of_sum_eq_zero h hz hx
    have hsum : (padOrTruncate (r :: rs) n).sum = 0 :=
      List.sum_eq_zero (fun x hx => hall x (padOrTruncate_mem r rs n x hx))
    rw [if_pos hsum]

end RiskEngine

namespace RiskEngine

/-- C5: ratio normalization.  For every non-negative requested ratio list
and positive level count `n`, `_match_length_and_normalize` returns a list
of length `n` summing to exactly 1; when the requested list sums to 0 (in
particular when it is empty) the result is the equal-weight list `1/n`;
and concretely `[0.5]` against 3 levels yields `[1/3, 1/3, 1/3]`. -/
theorem ratio_normalization (ratios : List ℚ) (n : Nat) (hn : 0 < n)
    (hnn : ∀ r ∈ ratios, 0 ≤ r) :
    (matchLengthAndNormalize ratios n).length = n ∧
    (matchLengthAndNormalize ratios n).sum = 1 ∧
    (ratios.sum = 0 →
      matchLengthAndNormalize ratios n = List.replicate n ((1 : ℚ) / n)) ∧
    matchLengthAndNormalize [1/2] 3 = [1/3, 1/3, 1/3] := by
  refine ⟨matchLengthAndNormalize_length ratios n,
    matchLengthAndNormalize_sum ratios n (Nat.pos_iff_ne_zero.mp hn),
    fun hz => matchLengthAndNormalize_zero_sum ratios n (Nat.pos_iff_ne_zero.mp hn) hnn hz,
    ?_⟩
  norm_num [matchLengthAndNormalize, padOrTruncate, List.replicate, List.getLast]

/-- C5 witness: spec scenario 4, `ratios=[0.5]` against 3 levels. -/
theorem ratio_normalization_witness :
    0 < 3 ∧ (∀ r ∈ [(1 : ℚ)/2], 0 ≤ r) ∧
    ((matchLengthAndNormalize [(1 : ℚ)/2] 3).length = 3 ∧
     (matchLengthAndNormalize [(1 : ℚ)/2] 3).sum = 1 ∧
     (([(1 : ℚ)/2]).sum = 0 →
       matchLengthAndNormalize [(1 : ℚ)/2] 3 = List.replicate 3 ((1 : ℚ) / 3)) ∧
     matchLengthAndNormalize [1/2] 3 = [1/3, 1/3, 1/3]) :=
  ⟨by norm_num, by norm_num,
    ratio_normalization [(1 : ℚ)/2] 3 (by norm_num) (by norm_num)⟩

end RiskEngine

namespace RiskEngine

/-- Marking a level as fully filled at its target quantity. -/
def tpMark (l : TPLevel) : TPLevel := { l with filled_qty := l.target_qty, triggered := true }

/-- `tpMark` does not change the target quantity. -/
@[simp] theorem tpMark_target (l : TPLevel) : (tpMark l).target_qty = l.target_qty := rfl

/-- Characterization of the `update_take_profit` loop on a pending ladder
suffix whose remaining quantity is exactly the pending target mass: some
prefix of `k` levels is marked filled at target, the rest is untouched, and
the new remaining quantity is the target mass of the untouched rest. -/
theorem tpLoop_spec (direction : String) (price : ℚ) (pending : List TPLevel) (rem : ℚ)
    (hnn : ∀ l ∈ pending, 0 ≤ l.target_qty)
    (hrem : rem = (pending.map TPLevel.target_qty).sum) :
    (tpLoop direction price pending rem).2.1 =
      (pending.take (tpLoop direction price pending rem).1.length).map tpMark ++
        pending.drop (tpLoop direction price pending rem).1.length ∧
    (tpLoop direction price pending rem).2.2 =
      ((pending.drop (tpLoop direction price pending rem).1.length).map
        TPLevel.target_qty).sum ∧
    (tpLoop direction price pending rem).1.length ≤ pending.length := by
  induction pending generalizing rem with
  | nil =>
    simp only [tpLoop]
    simp [hrem]
  | cons l ls ih =>
    by_cases hhit : isLevelHit direction price l.price
    · have hls : 0 ≤ (ls.map TPLevel.target_qty).sum :=
        List.sum_nonneg (by
          intro x hx
          rcases List.mem_map.mp hx with ⟨a, ha, rfl⟩
          exact hnn a (List.mem_cons_of_mem l ha))
      have hlt : l.target_qty ≤ rem := by
        rw [hrem, List.map_cons, List.sum_cons]
        linarith
      have hf : min l.target_qty rem = l.target_qty := min_eq_left hlt
      have hrem' : max (rem - min l.target_qty rem) 0 = (ls.map TPLevel.target_qty).sum := by
        rw [hf, hrem, List.map_cons, List.sum_cons]
        rw [add_sub_cancel_left]
        exact max_eq_left hls
      by_cases hz : max (rem - min l.target_qty rem) 0 ≤ 0
      · have hres : tpLoop direction price (l :: ls) rem =
            ([{ index := l.index, price := l.price, ratio := l.ratio
                qty := min l.target_qty rem, pct := l.pct }],
             { l with filled_qty := min l.target_qty rem, triggered := true } :: ls,
             max (rem - min l.target_qty rem) 0) := by
          rw [tpLoop, if_pos hhit, if_pos hz]
        rw [hres]
        refine ⟨?_, ?_, ?_⟩
        · simp [tpMark, hf, List.take_succ_cons, List.drop_succ_cons]
        · simp only [List.length_cons, List.length_nil, Nat.zero_add,
            List.drop_succ_cons, List.drop_zero]
          exact hrem'
        · simp
      · have hres : tpLoop direction price (l :: ls) rem =
            ({ index := l.index, price := l.price, ratio := l.ratio
               qty := min l.target_qty rem, pct := l.pct } ::
               (tpLoop direction price ls (max (rem - min l.target_qty rem) 0)).1,
             { l with filled_qty := min l.target_qty rem, triggered := true } ::
               (tpLoop direction price ls (max (rem - min l.target_qty rem) 0)).2.1,
             (tpLoop direction price ls (max (rem - min l.target_qty rem) 0)).2.2) := by
          rw [tpLoop, if_pos hhit, if_neg hz]
        have ihs := ih (max (rem - min l.target_qty rem) 0)
          (fun a ha => hnn a (List.mem_cons_of_mem l ha)) hrem'
        rw [hres]
        refine ⟨?_, ?_, ?_⟩
        · simp only [List.length_cons, List.take_succ_cons, List.map_cons,
            List.cons_append, List.drop_succ_cons]
          rw [ihs.1]
          simp [tpMark, hf]
        · simp only [List.length_cons, List.drop_succ_cons]
          exact ihs.2.1
        · simp only [List.length_cons]
          exact Nat.succ_le_succ ihs.2.2
    · have hres : tpLoop direction price (l :: ls) rem = ([], l :: ls, rem) := by
        rw [tpLoop, if_neg hhit]
      rw [hres]
      simp [hrem]

end RiskEngine

namespace RiskEngine

/-- The inductive invariant of the take-profit ladder: the levels split into
a triggered prefix filled exactly at target and an untouched pending suffix;
the remaining quantity is the pending target mass; the ladder's total target
mass is the position quantity; and a set `completed` flag means the ladder
is exhausted or nothing remains. -/
def TPInv (info : TPInfo) : Prop :=
  ∃ done todo : List TPLevel,
    info.levels = done ++ todo ∧
    info.next_index = done.length ∧
    (∀ l ∈ done, l.triggered = true ∧ l.filled_qty = l.target_qty) ∧
    (∀ l ∈ todo, l.triggered = false ∧ l.filled_qty = 0) ∧
    (∀ l ∈ info.levels, 0 ≤ l.target_qty) ∧
    info.remaining_qty = (todo.map TPLevel.target_qty).sum ∧
    (info.levels.map TPLevel.target_qty).sum = info.total_qty ∧
    (info.completed = true → todo = [] ∨ info.remaining_qty ≤ 0)

/-- Levels built by the construction loop start untriggered and unfilled. -/
theorem mkLevels_untouched (t e : ℚ) (d : String) (i : Nat) (prs : List (ℚ × ℚ)) :
    ∀ l ∈ mkLevels t e d i prs, l.triggered = false ∧ l.filled_qty = 0 := by
  induction prs generalizing i with
  | nil => simp [mkLevels]
  | cons pr rest ih =>
    intro l hl
    match pr with
    | (pct, ratio) =>
      rw [mkLevels] at hl
      rcases List.mem_cons.mp hl with rfl | hl
      · exact ⟨rfl, rfl⟩
      · exact ih (i + 1) l hl

/-- The target quantities of the constructed levels sum to the total
quantity times the ratio sum. -/
theorem mkLevels_target_sum (t e : ℚ) (d : String) (i : Nat) (prs : List (ℚ × ℚ)) :
    ((mkLevels t e d i prs).map TPLevel.target_qty).sum =
      t * (prs.map Prod.snd).sum := by
  induction prs generalizing i with
  | nil => simp [mkLevels]
  | cons pr rest ih =>
    match pr with
    | (pct, ratio) =>
      rw [mkLevels]
      simp only [List.map_cons, List.sum_cons, ih (i + 1)]
      ring

/-- Non-negative ratios and quantity give non-negative level targets. -/
theorem mkLevels_target_nonneg (t e : ℚ) (d : String) (i : Nat) (prs : List (ℚ × ℚ))
    (ht : 0 ≤ t) (hr : ∀ pr ∈ prs, 0 ≤ pr.2) :
    ∀ l ∈ mkLevels t e d i prs, 0 ≤ l.target_qty := by
  induction prs generalizing i with
  | nil => simp [mkLevels]
  | cons pr rest ih =>
    intro l hl
    match pr with
    | (pct, ratio) =>
      rw [mkLevels] at hl
      rcases List.mem_cons.mp hl with rfl | hl
      · exact mul_nonneg ht (hr (pct, ratio) (List.mem_cons_self _ _))
      · exact ih (i + 1) (fun q hq => hr q (List.mem_cons_of_mem _ hq)) l hl

/-- The `__init__` default levels are never empty. -/
theorem tpManagerInit_levels_ne_nil (a b : Option (List ℚ)) :
    (tpManagerInit a b).default_levels ≠ [] := by
  simp only [tpManagerInit]
  split_ifs with h
  · simp
  · exact h

/-- The `__init__` default ratios are non-negative. -/
theorem tpManagerInit_ratios_nonneg (a b : Option (List ℚ)) :
    ∀ v ∈ (tpManagerInit a b).default_ratios, 0 ≤ v := by
  intro v hv
  simp only [tpManagerInit] at hv
  refine matchLengthAndNormalize_nonneg _ _ (fun r hr => ?_) v hv
  have := (List.mem_filter.mp hr).2
  simpa using this

/-- The prepared level list is never empty when the manager was built by
`__init__`. -/
theorem prepare_fst_ne_nil (a b : Option (List ℚ)) (p q : Option (List ℚ)) :
    (prepareLevelsAndRatios (tpManagerInit a b) p q).1 ≠ [] := by
  simp only [prepareLevelsAndRatios]
  split_ifs with h
  · exact tpManagerInit_levels_ne_nil a b
  · exact h

/-- The prepared ratios are non-negative when the manager was built by
`__init__`. -/
theorem prepare_snd_nonneg (a b : Option (List ℚ)) (p q : Option (List ℚ)) :
    ∀ v ∈ (prepareLevelsAndRatios (tpManagerInit a b) p q).2, 0 ≤ v := by
  intro v hv
  simp only [prepareLevelsAndRatios] at hv
  refine matchLengthAndNormalize_nonneg _ _ (fun r hr => ?_) v hv
  split_ifs at hr with h
  · exact tpManagerInit_ratios_nonneg a b r hr
  · match q with
    | none => simp at h
    | some rs =>
      have := (List.mem_filter.mp hr).2
      simpa using this

/-- The prepared ratio list always matches the level count. -/
theorem prepare_snd_length (mgr : TPManager) (p q : Option (List ℚ)) :
    (prepareLevelsAndRatios mgr p q).2.length =
      (prepareLevelsAndRatios mgr p q).1.length :=
  matchLengthAndNormalize_length _ _

/-- The prepared ratios sum to 1 for a nonempty level list. -/
theorem prepare_snd_sum (mgr : TPManager) (p q : Option (List ℚ))
    (h : (prepareLevelsAndRatios mgr p q).1 ≠ []) :
    (prepareLevelsAndRatios mgr p q).2.sum = 1 :=
  matchLengthAndNormalize_sum _ _
    (fun hl => h (List.eq_nil_of_length_eq_zero hl))

end RiskEngine

namespace RiskEngine

/-- The substituted total quantity is always positive. -/
theorem tpInit_total_pos (mgr : TPManager) (position : TPPosition)
    (pcts ratios : Option (List ℚ)) :
    0 < (initializeTakeProfit mgr position pcts ratios).total_qty := by
  simp only [initializeTakeProfit]
  split_ifs with h
  · norm_num
  · linarith [not_le.mp h]

/-- `initialize_take_profit` under an `__init__`-built manager establishes
the ladder invariant. -/
theorem tpInit_inv (a b : Option (List ℚ)) (position : TPPosition)
    (pcts ratios : Option (List ℚ)) :
    TPInv (initializeTakeProfit (tpManagerInit a b) position pcts ratios) := by
  have hlen := prepare_snd_length (tpManagerInit a b) pcts ratios
  have hsum := prepare_snd_sum (tpManagerInit a b) pcts ratios
    (prepare_fst_ne_nil a b pcts ratios)
  have hnn := prepare_snd_nonneg a b pcts ratios
  have hpos := tpInit_total_pos (tpManagerInit a b) position pcts ratios
  have hsnd : ((prepareLevelsAndRatios (tpManagerInit a b) pcts ratios).1.zip
      (prepareLevelsAndRatios (tpManagerInit a b) pcts ratios).2).map Prod.snd =
      (prepareLevelsAndRatios (tpManagerInit a b) pcts ratios).2 :=
    List.map_snd_zip _ _ (le_of_eq hlen)
  refine ⟨[], (initializeTakeProfit (tpManagerInit a b) position pcts ratios).levels,
    by simp, rfl, by simp, ?_, ?_, ?_, ?_, ?_⟩
  · exact mkLevels_untouched _ _ _ _ _
  · refine mkLevels_target_nonneg _ _ _ _ _ (le_of_lt hpos) ?_
    intro pr hpr
    exact hnn pr.2 (List.of_mem_zip hpr).2
  · show (initializeTakeProfit (tpManagerInit a b) position pcts ratios).total_qty = _
    simp only [initializeTakeProfit]
    rw [mkLevels_target_sum, hsnd, hsum, mul_one]
  · simp only [initializeTakeProfit]
    rw [mkLevels_target_sum, hsnd, hsum, mul_one]
  · intro h
    simp only [initializeTakeProfit] at h
    cases h

/-- `update_take_profit` preserves the ladder invariant. -/
theorem updateTakeProfit_inv (info : TPInfo) (p : ℚ) (hinv : TPInv info) :
    TPInv (updateTakeProfit info p).2 := by
  obtain ⟨done, todo, hlev, hnext, hdone, htodo, hnn, hrem, htot, _hcomp⟩ := hinv
  have hpre : info.levels.take info.next_index = done := by
    rw [hlev, hnext, List.take_left]
  have hsuf : info.levels.drop info.next_index = todo := by
    rw [hlev, hnext, List.drop_left]
  have hnn_todo : ∀ l ∈ todo, 0 ≤ l.target_qty := fun l hl =>
    hnn l (by rw [hlev]; exact List.mem_append_right done hl)
  have hspec := tpLoop_spec info.direction p todo info.remaining_qty hnn_todo hrem
  simp only [updateTakeProfit, hpre, hsuf]
  set k := (tpLoop info.direction p todo info.remaining_qty).1.length with hk
  have hklen : (todo.take k).length = k := by
    rw [List.length_take]
    exact Nat.min_eq_left hspec.2.2
  refine ⟨done ++ (todo.take k).map tpMark, todo.drop k, ?_, ?_, ?_, ?_, ?_, ?_, ?_, ?_⟩
  · show done ++ _ = _
    rw [hspec.1, List.append_assoc]
  · show info.next_index + k = _
    rw [List.length_append, List.length_map, hklen, hnext]
  · intro l hl
    rcases List.mem_append.mp hl with h | h
    · exact hdone l h
    · rcases List.mem_map.mp h with ⟨a, _, rfl⟩
      exact ⟨rfl, rfl⟩
  · intro l hl
    exact htodo l (List.mem_of_mem_drop hl)
  · show ∀ l ∈ done ++ _, 0 ≤ l.target_qty
    intro l hl
    rw [hspec.1, ← List.append_assoc] at hl
    rcases List.mem_append.mp hl with h | h
    · rcases List.mem_append.mp h with h2 | h2
      · exact hnn l (by rw [hlev]; exact List.mem_append_left todo h2)
      · rcases List.mem_map.mp h2 with ⟨a, ha, rfl⟩
        rw [tpMark_target]
        exact hnn_todo a (List.mem_of_mem_take ha)
    · exact hnn_todo l (List.mem_of_mem_drop h)
  · exact hspec.2.1
  · show ((done ++ _).map TPLevel.target_qty).sum = info.total_qty
    rw [hspec.1, ← List.append_assoc, List.append_assoc]
    rw [List.map_append, List.sum_append]
    rw [List.map_append, List.sum_append]
    rw [List.map_map]
    have : TPLevel.target_qty ∘ tpMark = TPLevel.target_qty := by
      funext x
      simp [tpMark]
    rw [this, ← List.sum_append, ← List.map_append, List.take_append_drop]
    rw [← List.sum_append, ← List.map_append, ← hlev]
    exact htot
  · intro hc
    have := of_decide_eq_true hc
    rcases this with h | h
    · left
      rw [hspec.1, ← List.append_assoc] at h
      simp only [List.length_append, List.length_map, List.length_take,
        List.length_drop, hnext] at h
      have h2 := hspec.2.2
      have hlend : (todo.drop k).length = 0 := by
        rw [List.length_drop]
        omega
      exact List.eq_nil_of_length_eq_zero hlend
    · right
      exact h

/-- A run of updates preserves the ladder invariant. -/
theorem tpRun_inv (info : TPInfo) (prices : List ℚ) (hinv : TPInv info) :
    TPInv (tpRun info prices) := by
  induction prices generalizing info with
  | nil => exact hinv
  | cons p ps ih =>
    rw [tpRun, List.foldl_cons, ← tpRun]
    exact ih _ (updateTakeProfit_inv info p hinv)

/-- The total quantity is constant along a run. -/
theorem tpRun_total (info : TPInfo) (prices : List ℚ) :
    (tpRun info prices).total_qty = info.total_qty := by
  induction prices generalizing info with
  | nil => rfl
  | cons p ps ih =>
    rw [tpRun, List.foldl_cons, ← tpRun, ih]
    rfl

end RiskEngine

namespace RiskEngine

/-- Quantity accounting consequences of the ladder invariant. -/
theorem TPInv_accounting (info : TPInfo) (hinv : TPInv info) :
    sumFilled info = info.total_qty - info.remaining_qty ∧
    0 ≤ info.remaining_qty ∧
    sumFilled info ≤ info.total_qty ∧
    (info.completed = true → sumFilled info = info.total_qty) ∧
    (∀ l ∈ info.levels, l.triggered = false → l.filled_qty = 0) := by
  obtain ⟨done, todo, hlev, _hnext, hdone, htodo, hnn, hrem, htot, hcomp⟩ := hinv
  have hdfill : done.map TPLevel.filled_qty = done.map TPLevel.target_qty :=
    List.map_congr_left (fun l hl => (hdone l hl).2)
  have htfill : (todo.map TPLevel.filled_qty).sum = 0 :=
    List.sum_eq_zero (by
      intro x hx
      rcases List.mem_map.mp hx with ⟨l, hl, rfl⟩
      exact (htodo l hl).2)
  have hsf : sumFilled info = (done.map TPLevel.target_qty).sum := by
    rw [sumFilled, hlev, List.map_append, List.sum_append, hdfill, htfill, add_zero]
  have hts : info.total_qty = (done.map TPLevel.target_qty).sum +
      (todo.map TPLevel.target_qty).sum := by
    rw [← htot, hlev, List.map_append, List.sum_append]
  have hrnn : 0 ≤ info.remaining_qty := by
    rw [hrem]
    refine List.sum_nonneg ?_
    intro x hx
    rcases List.mem_map.mp hx with ⟨l, hl, rfl⟩
    exact hnn l (by rw [hlev]; exact List.mem_append_right done hl)
  refine ⟨by rw [hsf, hts, hrem]; ring, hrnn, ?_, ?_, ?_⟩
  · rw [hsf, hts]
    have : 0 ≤ (todo.map TPLevel.target_qty).sum := by rw [← hrem]; exact hrnn
    linarith
  · intro hc
    rcases hcomp hc with h | h
    · rw [hsf, hts, h]
      simp
    · have : info.remaining_qty = 0 := le_antisymm h hrnn
      rw [hsf, hts, ← hrem, this]
      ring
  · intro l hl hltrig
    rw [hlev] at hl
    rcases List.mem_append.mp hl with h | h
    · rw [(hdone l h).1] at hltrig
      cases hltrig
    · exact (htodo l h).2

/-- A run followed by one more update: the final state of the longer run. -/
theorem tpRun_snoc (info : TPInfo) (prices : List ℚ) (p : ℚ) :
    tpRun info (prices ++ [p]) = (updateTakeProfit (tpRun info prices) p).2 := by
  simp [tpRun, List.foldl_append]

/-- C4: take-profit quantity accounting.  For every `__init__`-built manager,
position and ratio request, after any sequence of `update_take_profit` calls
the sum of `filled_qty` over the ladder (untriggered levels carry
`filled_qty = 0`, so this is the sum over triggered levels) never exceeds
`total_qty`; `remaining_qty` equals `total_qty` minus that sum and stays
non-negative; when the `completed` flag is set the filled sum equals
`total_qty` exactly; and the flag and remaining quantity returned by a
further update coincide with the fields of the resulting state, so the
guarantee covers every returned `completed` flag. -/
theorem take_profit_quantity_accounting (a b : Option (List ℚ))
    (position : TPPosition) (pcts ratios : Option (List ℚ)) (prices : List ℚ) :
    sumFilled (tpRun (initializeTakeProfit (tpManagerInit a b) position pcts ratios)
        prices) ≤
      (initializeTakeProfit (tpManagerInit a b) position pcts ratios).total_qty ∧
    (tpRun (initializeTakeProfit (tpManagerInit a b) position pcts ratios)
        prices).remaining_qty =
      (initializeTakeProfit (tpManagerInit a b) position pcts ratios).total_qty -
        sumFilled (tpRun (initializeTakeProfit (tpManagerInit a b) position pcts ratios)
          prices) ∧
    0 ≤ (tpRun (initializeTakeProfit (tpManagerInit a b) position pcts ratios)
        prices).remaining_qty ∧
    ((tpRun (initializeTakeProfit (tpManagerInit a b) position pcts ratios)
        prices).completed = true →
      sumFilled (tpRun (initializeTakeProfit (tpManagerInit a b) position pcts ratios)
          prices) =
        (initializeTakeProfit (tpManagerInit a b) position pcts ratios).total_qty) ∧
    (∀ l ∈ (tpRun (initializeTakeProfit (tpManagerInit a b) position pcts ratios)
        prices).levels, l.triggered = false → l.filled_qty = 0) ∧
    (∀ p : ℚ,
      (updateTakeProfit (tpRun (initializeTakeProfit (tpManagerInit a b) position
          pcts ratios) prices) p).1.completed =
        (tpRun (initializeTakeProfit (tpManagerInit a b) position pcts ratios)
          (prices ++ [p])).completed ∧
      (updateTakeProfit (tpRun (initializeTakeProfit (tpManagerInit a b) position
          pcts ratios) prices) p).1.remaining_qty =
        (tpRun (initializeTakeProfit (tpManagerInit a b) position pcts ratios)
          (prices ++ [p])).remaining_qty) := by
  have hinv := tpRun_inv _ prices (tpInit_inv a b position pcts ratios)
  have hacc := TPInv_accounting _ hinv
  have htotal := tpRun_total (initializeTakeProfit (tpManagerInit a b) position
    pcts ratios) prices
  rw [htotal] at hacc
  refine ⟨hacc.2.2.1, by rw [hacc.1]; ring, hacc.2.1, hacc.2.2.2.1, hacc.2.2.2.2, ?_⟩
  intro p
  rw [tpRun_snoc]
  exact ⟨rfl, rfl⟩

end RiskEngine

namespace RiskEngine

/-- Constructed levels have `target_qty = total_qty * ratio`. -/
theorem mkLevels_target_eq (t e : ℚ) (d : String) (i : Nat) (prs : List (ℚ × ℚ)) :
    ∀ l ∈ mkLevels t e d i prs, l.target_qty = t * l.ratio := by
  induction prs generalizing i with
  | nil => simp [mkLevels]
  | cons pr rest ih =>
    intro l hl
    match pr with
    | (pct, ratio) =>
      rw [mkLevels] at hl
      rcases List.mem_cons.mp hl with rfl | hl
      · rfl
      · exact ih (i + 1) l hl

/-- The constructed ladder has one level per (pct, ratio) pair. -/
theorem mkLevels_length (t e : ℚ) (d : String) (i : Nat) (prs : List (ℚ × ℚ)) :
    (mkLevels t e d i prs).length = prs.length := by
  induction prs generalizing i with
  | nil => rfl
  | cons pr rest ih =>
    match pr with
    | (pct, ratio) =>
      rw [mkLevels]
      simp [ih (i + 1)]

/-- C8: updates for an untracked symbol are benign no-ops.  The stop-loss
update returns `{'stop_triggered': False}` (wrapped in `some`: no exception)
and the take-profit update returns the empty non-triggered result with
`remaining_qty = 0` and `completed = false`; both leave the whole tracking
map — hence every other symbol's state — unchanged. -/
theorem untracked_symbol_noop (cfg : SLConfig) (stops : SLState) (targets : TPState)
    (symbol : Sym) (price : ℚ)
    (hsl : stops symbol = none) (htp : targets symbol = none) :
    slUpdate cfg stops symbol price =
      some ({ stop_triggered := false, stop_price := none, stop_type := none
              pnl_pct := none }, stops) ∧
    tpUpdate targets symbol price =
      ({ triggered := false, triggered_levels := [], current_price := price
         remaining_qty := 0, completed := false, next_level_price := none }, targets) := by
  constructor
  · simp only [slUpdate, hsl]
  · simp only [tpUpdate, htp]

/-- C8 witness: empty tracking maps and an arbitrary symbol. -/
theorem untracked_symbol_noop_witness :
    ((fun _ : Sym => (none : Option StopInfo)) "BTCUSDT" = none) ∧
    ((fun _ : Sym => (none : Option TPInfo)) "BTCUSDT" = none) ∧
    (slUpdate scenario2SLConfig (fun _ => none) "BTCUSDT" 100 =
      some ({ stop_triggered := false, stop_price := none, stop_type := none
              pnl_pct := none }, fun _ => none) ∧
     tpUpdate (fun _ => none) "BTCUSDT" 100 =
      ({ triggered := false, triggered_levels := [], current_price := 100
         remaining_qty := 0, completed := false, next_level_price := none },
       fun _ => none)) :=
  ⟨rfl, rfl,
    untracked_symbol_noop scenario2SLConfig (fun _ => none) (fun _ => none)
      "BTCUSDT" 100 rfl rfl⟩

/-- C10: a position carrying no positive quantity (missing, zero or negative
`qty` and `quantity`) does not make `initialize_take_profit` raise or refuse:
it builds the full tracking state with `total_qty = 1` and
`remaining_qty = 1`, every level's target quantity is `1 * ratio` (computed
from the substituted quantity), and the ladder is complete — one level per
prepared (pct, ratio) pair, never empty. -/
theorem tp_init_zero_qty (a b : Option (List ℚ)) (position : TPPosition)
    (pcts ratios : Option (List ℚ))
    (hq : ∀ x : ℚ, position.qty = some x → x ≤ 0)
    (hq2 : ∀ x : ℚ, position.quantity = some x → x ≤ 0) :
    (initializeTakeProfit (tpManagerInit a b) position pcts ratios).total_qty = 1 ∧
    (initializeTakeProfit (tpManagerInit a b) position pcts ratios).remaining_qty = 1 ∧
    (∀ l ∈ (initializeTakeProfit (tpManagerInit a b) position pcts ratios).levels,
      l.target_qty = 1 * l.ratio) ∧
    (initializeTakeProfit (tpManagerInit a b) position pcts ratios).levels.length =
      (prepareLevelsAndRatios (tpManagerInit a b) pcts ratios).1.length ∧
    (initializeTakeProfit (tpManagerInit a b) position pcts ratios).levels ≠ [] := by
  have hraw : pyOrQ position.qty (pyOrQ position.quantity 0) ≤ 0 := by
    have hinner : pyOrQ position.quantity 0 ≤ 0 := by
      match h : position.quantity with
      | none => simp [pyOrQ]
      | some y =>
        simp only [pyOrQ]
        split_ifs with hy
        · exact le_refl 0
        · exact hq2 y h
    match h : position.qty with
    | none => simpa [pyOrQ] using hinner
    | some x =>
      simp only [pyOrQ]
      split_ifs with hx
      · exact hinner
      · exact hq x h
  have htotal : (initializeTakeProfit (tpManagerInit a b) position pcts ratios).total_qty
      = 1 := by
    simp only [initializeTakeProfit]
    rw [if_pos hraw]
  have hlevels : (initializeTakeProfit (tpManagerInit a b) position pcts
      ratios).levels = mkLevels 1 position.entry_price (normalizeDirection position) 0
      ((prepareLevelsAndRatios (tpManagerInit a b) pcts ratios).1.zip
        (prepareLevelsAndRatios (tpManagerInit a b) pcts ratios).2) := by
    simp only [initializeTakeProfit]
    rw [if_pos hraw]
  have hziplen : ((prepareLevelsAndRatios (tpManagerInit a b) pcts ratios).1.zip
      (prepareLevelsAndRatios (tpManagerInit a b) pcts ratios).2).length =
      (prepareLevelsAndRatios (tpManagerInit a b) pcts ratios).1.length := by
    rw [List.length_zip, prepare_snd_length]
    exact Nat.min_self _
  refine ⟨htotal, ?_, ?_, ?_, ?_⟩
  · show (initializeTakeProfit (tpManagerInit a b) position pcts ratios).total_qty = 1
    exact htotal
  · rw [hlevels]
    exact mkLevels_target_eq 1 _ _ 0 _
  · rw [hlevels, mkLevels_length, hziplen]
  · rw [hlevels]
    intro hnil
    have hlen0 := congrArg List.length hnil
    rw [mkLevels_length, hziplen] at hlen0
    simp only [List.length_nil] at hlen0
    exact prepare_fst_ne_nil a b pcts ratios (List.eq_nil_of_length_eq_zero hlen0)

/-- C10 witness: a position whose `qty` is absent and whose `quantity` is 0. -/
theorem tp_init_zero_qty_witness :
    (∀ x : ℚ, ({ side := some "buy", direction := none, entry_price := 100
                 qty := none, quantity := some 0 } : TPPosition).qty = some x → x ≤ 0) ∧
    (∀ x : ℚ, ({ side := some "buy", direction := none, entry_price := 100
                 qty := none, quantity := some 0 } : TPPosition).quantity = some x →
       x ≤ 0) ∧
    (initializeTakeProfit (tpManagerInit none none)
      { side := some "buy", direction := none, entry_price := 100
        qty := none, quantity := some 0 } none none).total_qty = 1 ∧
    (initializeTakeProfit (tpManagerInit none none)
      { side := some "buy", direction := none, entry_price := 100
        qty := none, quantity := some 0 } none none).remaining_qty = 1 := by
  have h1 : ∀ x : ℚ, (none : Option ℚ) = some x → x ≤ 0 := by
    intro x hx
    cases hx
  have h2 : ∀ x : ℚ, (some (0 : ℚ)) = some x → x ≤ 0 := by
    intro x hx
    injection hx with h
    rw [← h]
  have h := tp_init_zero_qty none none
    { side := some "buy", direction := none, entry_price := 100
      qty := none, quantity := some 0 } none none h1 h2
  exact ⟨h1, h2, h.1, h.2.1⟩

end RiskEngine
